import Mathlib

/-!
Verification development for the Hexplastics Frappe/ERPNext customization app.

Each Python controller hook, whitelisted RPC handler and scheduled task that
the specification talks about is shallowly embedded as an executable Lean
definition.  Framework services (the ORM, the SQL layer, the HTTP client,
the scheduler clock) are passed in explicitly as environment records whose
fields are lookup functions; machine floats are modelled as rationals.
-/

namespace Hexplastics

/-- Python truthiness of an optional string field: `None` and `""` are falsy. -/
def strBlank : Option String → Bool
  | none => true
  | some s => s = ""

/-- Python's `str.strip()` (ASCII whitespace), modelled over the character
list so that it evaluates inside the kernel. -/
def pyStrip (s : String) : String :=
  ⟨((s.data.dropWhile Char.isWhitespace).reverse.dropWhile Char.isWhitespace).reverse⟩

/-- Python's `str.lower()` (ASCII case folding), modelled over the character
list so that it evaluates inside the kernel. -/
def pyLower (s : String) : String :=
  ⟨s.data.map Char.toLower⟩

/-- Python truthiness combined with a positivity test, as in
`row.consumption and row.consumption > 0` (`None` and `0` are falsy). -/
def posQ : Option ℚ → Bool
  | none => false
  | some c => 0 < c

/-! ## Daily Rejection Data (`daily_rejection_data.py`)

`DailyRejectionData.validate` recomputes the per-row and per-document
rejection totals from the child table `table_zsze`. -/

/-- A row of the `Daily Rejection Data Table` child table (`table_zsze`). -/
structure RejRow where
  shift_type : Option String
  box_rejected_by_die_punching : Option ℚ
  box_rejected_by_printing : Option ℚ
  box_rejected_by_bending : Option ℚ
  box_rejected_by_stepling : Option ℚ
  box_rejected_by_dry_problem : Option ℚ
  row_total_rejection : Option ℚ
  deriving Repr, DecidableEq

/-- The five-field rejection total of one child row; empty values count as 0
(`row.box_rejected_by_die_punching or 0`, ...). -/
def rowTotal (r : RejRow) : ℚ :=
  r.box_rejected_by_die_punching.getD 0 + r.box_rejected_by_printing.getD 0 +
    r.box_rejected_by_bending.getD 0 + r.box_rejected_by_stepling.getD 0 +
    r.box_rejected_by_dry_problem.getD 0

/-- The `Daily Rejection Data` document: the child table, the user-entered
`total_box_checked`, and the derived fields maintained by `validate`. -/
structure DailyRejectionData where
  table_zsze : List RejRow
  total_box_checked : Option ℚ
  total_rejected_in_day_shift : ℚ
  total_rejected_in_night_shift : ℚ
  total_rejection : ℚ
  rejection_in_ : ℚ
  deriving Repr, DecidableEq

/-- The `for row in self.get("table_zsze")` loop of `validate`: accumulates
`day_total`, `night_total`, `overall_total` and writes each row's
`row_total_rejection` (rendered as structural recursion; the sums agree with
the Python left-to-right accumulation because `+` on ℚ is commutative). -/
def validateRows : List RejRow → ℚ × ℚ × ℚ × List RejRow
  | [] => (0, 0, 0, [])
  | r :: rs =>
    let rt := rowTotal r
    let rest := validateRows rs
    ((if r.shift_type = some "Day" then rt + rest.1 else rest.1),
     (if r.shift_type = some "Night" then rt + rest.2.1 else rest.2.1),
     rt + rest.2.2.1,
     { r with row_total_rejection := some rt } :: rest.2.2.2)

/-- `DailyRejectionData.validate`: set the parent totals from the child rows
and compute `rejection_in_%` (0 when `total_box_checked` is empty or not
positive). -/
def DailyRejectionData.validate (doc : DailyRejectionData) : DailyRejectionData :=
  let acc := validateRows doc.table_zsze
  { doc with
    table_zsze := acc.2.2.2
    total_rejected_in_day_shift := acc.1
    total_rejected_in_night_shift := acc.2.1
    total_rejection := acc.2.2.1
    rejection_in_ :=
      match doc.total_box_checked with
      | some t => if 0 < t then acc.2.2.1 / t * 100 else 0
      | none => 0 }

/-- A child row with shift type `Both` and no rejection entries. -/
def rejRowBoth : RejRow where
  shift_type := some "Both"
  box_rejected_by_die_punching := none
  box_rejected_by_printing := none
  box_rejected_by_bending := none
  box_rejected_by_stepling := none
  box_rejected_by_dry_problem := none
  row_total_rejection := none

/-- A `Day` child row with 2 die-punching and 1 printing rejections. -/
def rejRowDay : RejRow where
  shift_type := some "Day"
  box_rejected_by_die_punching := some 2
  box_rejected_by_printing := some 1
  box_rejected_by_bending := none
  box_rejected_by_stepling := none
  box_rejected_by_dry_problem := none
  row_total_rejection := none

/-- A child row with no shift type and 4 die-punching rejections. -/
def rejRowNoShift : RejRow where
  shift_type := none
  box_rejected_by_die_punching := some 4
  box_rejected_by_printing := none
  box_rejected_by_bending := none
  box_rejected_by_stepling := none
  box_rejected_by_dry_problem := none
  row_total_rejection := none

/-- A concrete `Daily Rejection Data` document whose single child row has
shift type `Both` and no rejection entries. -/
def rejDocBoth : DailyRejectionData where
  table_zsze := [rejRowBoth]
  total_box_checked := none
  total_rejected_in_day_shift := 0
  total_rejected_in_night_shift := 0
  total_rejection := 0
  rejection_in_ := 0

/-- A concrete `Daily Rejection Data` document with one `Day` row and one
row with no shift type. -/
def rejDocMixed : DailyRejectionData where
  table_zsze := [rejRowDay, rejRowNoShift]
  total_box_checked := some 100
  total_rejected_in_day_shift := 0
  total_rejected_in_night_shift := 0
  total_rejection := 0
  rejection_in_ := 0

/-! ## Production Log Sheet (`production_log_sheet.py`)

`ProductionLogSheet.on_submit` creates and submits a `Manufacture` Stock
Entry from the sheet.  The ERPNext rate computation
(`calculate_rate_and_amount` / `_calculate_finished_item_rates`) only
rewrites `basic_rate`/`amount` of the inserted rows from warehouse valuation
data and is not modelled; all verified properties are stated on
rate-independent projections of the rows.  The `custom_*` display fields
(shift type, machine, operator, supervisor) are copied onto the Stock Entry
without affecting control flow and are likewise not modelled. -/

/-- A row of the sheet's `raw_material_consumption` child table. -/
structure RMRow where
  item_code : Option String
  source_warehouse : Option String
  consumption : Option ℚ
  stock_uom : Option String
  deriving Repr, DecidableEq

/-- A row of the sheet's `production_details` child table. -/
structure PDRow where
  item_code : Option String
  target_warehouse : Option String
  manufactured_qty : Option ℚ
  stock_uom : Option String
  deriving Repr, DecidableEq

/-- The fields of a `Production Log Sheet` read by `on_submit`. -/
structure ProductionLogSheetDoc where
  name : String
  production_date : Option String
  production_time : Option String
  manufacturing_item : Option String
  raw_material_consumption : List RMRow
  production_details : List PDRow
  deriving Repr, DecidableEq

/-- A `Stock Entry Detail` row as appended by `on_submit` (`basic_rate` is
the value at append time, before the framework's valuation pass). -/
structure SEItem where
  s_warehouse : Option String
  t_warehouse : Option String
  item_code : String
  qty : ℚ
  uom : Option String
  stock_uom : Option String
  conversion_factor : ℚ
  basic_rate : ℚ
  is_finished_item : Nat
  deriving Repr, DecidableEq

/-- The Stock Entry built by `on_submit` (`name` is assigned on insert). -/
structure StockEntry where
  name : String
  stock_entry_type : String
  posting_date : String
  posting_time : String
  set_posting_time : Nat
  items : List SEItem
  production_log_sheet : String
  deriving Repr, DecidableEq

/-- The fields of an existing Stock Entry row consulted by the
`frappe.db.exists` dedup check. -/
structure LinkedSE where
  production_log_sheet : Option String
  docstatus : Nat
  deriving Repr, DecidableEq

/-- Framework services used by `on_submit`: the Stock Entry table for the
dedup lookup, the `Item.stock_uom` lookup, the name the framework gives the
inserted Stock Entry, and an injected failure of the framework steps
(`insert` / `calculate_rate_and_amount` / `save` / `submit`). -/
structure SubmitEnv where
  stockEntries : List LinkedSE
  itemStockUom : String → Option String
  newStockEntryName : String
  frameworkError : Option String

/-- `frappe.db.exists("Stock Entry", {"production_log_sheet": name,
"docstatus": ["!=", 2]})`. -/
def existsLinkedStockEntry (env : SubmitEnv) (sheetName : String) : Bool :=
  env.stockEntries.any fun se =>
    se.production_log_sheet == some sheetName && !(se.docstatus == 2)

/-- The Stock Entry item appended for a raw-material consumption row. -/
def srcItemOfRow (r : RMRow) : SEItem where
  s_warehouse := r.source_warehouse
  t_warehouse := none
  item_code := r.item_code.getD ""
  qty := r.consumption.getD 0
  uom := r.stock_uom
  stock_uom := r.stock_uom
  conversion_factor := 1
  basic_rate := 0
  is_finished_item := 0

/-- The `for row in self.raw_material_consumption` loop: skip rows without an
item code, require a source warehouse, skip rows without a positive
consumption, append the rest as source rows. -/
def buildSourceRows : List RMRow → Except String (List SEItem)
  | [] => .ok []
  | r :: rs =>
    if strBlank r.item_code then buildSourceRows rs
    else if strBlank r.source_warehouse then
      .error ("Source Warehouse is required for raw material row with item " ++
        r.item_code.getD "" ++ ".")
    else if !posQ r.consumption then buildSourceRows rs
    else do
      let rest ← buildSourceRows rs
      pure (srcItemOfRow r :: rest)

/-- The Stock Entry item appended for a production-details row (`uom` is the
resolved stock UOM, `finished` the computed `is_finished_item` flag). -/
def tgtItemOfRow (r : PDRow) (uom : String) (finished : Bool) : SEItem where
  s_warehouse := none
  t_warehouse := r.target_warehouse
  item_code := r.item_code.getD ""
  qty := r.manufactured_qty.getD 0
  uom := some uom
  stock_uom := some uom
  conversion_factor := 1
  basic_rate := 0
  is_finished_item := if finished then 1 else 0

/-- The stock UOM used for a production-details row: the row's own
`stock_uom`, or the `Item` master's when the row has none. -/
def resolveUom (env : SubmitEnv) (r : PDRow) : Option String :=
  if strBlank r.stock_uom then env.itemStockUom (r.item_code.getD "") else r.stock_uom

/-- The `for row in self.production_details` loop: skip rows without an item
code, require a target warehouse, skip rows without a positive manufactured
qty, resolve the UOM (throwing when none is found), and thread the
`finished_item_marked` flag (`marked`): a row is marked finished when it is
the sheet's `manufacturing_item` or no row has been marked yet. -/
def buildTargetRows (env : SubmitEnv) (manufacturingItem : Option String) :
    List PDRow → Bool → Except String (List SEItem)
  | [], _ => .ok []
  | r :: rs, marked =>
    if strBlank r.item_code then buildTargetRows env manufacturingItem rs marked
    else if strBlank r.target_warehouse then
      .error ("Target Warehouse is required for finished / scrap row with item " ++
        r.item_code.getD "" ++ ".")
    else if !posQ r.manufactured_qty then buildTargetRows env manufacturingItem rs marked
    else if strBlank (resolveUom env r) then
      .error ("Stock UOM not found for item " ++ r.item_code.getD "" ++ ".")
    else
      let shouldMark := r.item_code == manufacturingItem || !marked
      do
        let rest ← buildTargetRows env manufacturingItem rs (marked || shouldMark)
        pure (tgtItemOfRow r ((resolveUom env r).getD "") shouldMark :: rest)

/-- The observable result of `on_submit`: the message of the raised
exception when it throws, the (submitted) Stock Entry it created, and the
value `db_set` wrote into the sheet's `stock_entry_no`. -/
structure SubmitOutcome where
  error : Option String
  created : Option StockEntry
  stock_entry_no : Option String
  deriving Repr, DecidableEq

/-- The message of the `frappe.throw` in the hook's `except` handler, which
wraps any exception raised while building / inserting / submitting. -/
def wrapSubmitError (m : String) : String :=
  "Failed to create Manufacture Stock Entry for Production Log Sheet: " ++ m

/-- `ProductionLogSheet.on_submit`: return silently when a non-cancelled
Stock Entry is already linked, run the upfront validations
(`frappe.throw` outside the `try`), build the item rows, and on success
insert and submit the Stock Entry and `db_set` `stock_entry_no`; any
exception inside the `try` is re-raised wrapped by `wrapSubmitError`. -/
def ProductionLogSheetDoc.on_submit (env : SubmitEnv) (sheet : ProductionLogSheetDoc) :
    SubmitOutcome :=
  if existsLinkedStockEntry env sheet.name then
    { error := none, created := none, stock_entry_no := none }
  else if strBlank sheet.production_date || strBlank sheet.production_time then
    { error := some "Production Date and Production Time are required to create Stock Entry.",
      created := none, stock_entry_no := none }
  else if sheet.raw_material_consumption.isEmpty then
    { error := some "Raw Material Consumption table is empty. Cannot create Stock Entry.",
      created := none, stock_entry_no := none }
  else if !(sheet.raw_material_consumption.any fun d => posQ d.consumption) then
    { error := some "No raw material consumption quantity found. Cannot create Stock Entry.",
      created := none, stock_entry_no := none }
  else if !(sheet.production_details.any fun d => posQ d.manufactured_qty) then
    { error := some "Production Details table must have items with quantities. Cannot create Stock Entry.",
      created := none, stock_entry_no := none }
  else
    match buildSourceRows sheet.raw_material_consumption with
    | .error m => { error := some (wrapSubmitError m), created := none, stock_entry_no := none }
    | .ok src =>
      match buildTargetRows env sheet.manufacturing_item sheet.production_details false with
      | .error m => { error := some (wrapSubmitError m), created := none, stock_entry_no := none }
      | .ok tgt =>
        let items := src ++ tgt
        if items.isEmpty then
          { error := some (wrapSubmitError
              "No valid Stock Entry rows were generated from this Production Log Sheet."),
            created := none, stock_entry_no := none }
        else
          match env.frameworkError with
          | some m =>
            { error := some (wrapSubmitError m), created := none, stock_entry_no := none }
          | none =>
            { error := none,
              created := some
                { name := env.newStockEntryName, stock_entry_type := "Manufacture",
                  posting_date := sheet.production_date.getD "",
                  posting_time := sheet.production_time.getD "",
                  set_posting_time := 1, items := items,
                  production_log_sheet := sheet.name },
              stock_entry_no := some env.newStockEntryName }

/-- The data of a source row that C1 constrains (item, qty, warehouses,
finished flag); `uom` and the pre-valuation `basic_rate` are not claimed. -/
def srcProj (i : SEItem) : String × ℚ × Option String × Nat :=
  (i.item_code, i.qty, i.s_warehouse, i.is_finished_item)

/-- The data of a target row that C1 constrains (item, qty, warehouse). -/
def tgtProj (i : SEItem) : String × ℚ × Option String :=
  (i.item_code, i.qty, i.t_warehouse)

/-- A concrete environment with no pre-existing Stock Entry. -/
def submitEnvClean : SubmitEnv where
  stockEntries := []
  itemStockUom := fun _ => some "Nos"
  newStockEntryName := "MAT-STE-00042"
  frameworkError := none

/-- A sheet with no production date: `on_submit` refuses it. -/
def sheetNoDate : ProductionLogSheetDoc where
  name := "PLS-0001"
  production_date := none
  production_time := some "10:00:00"
  manufacturing_item := none
  raw_material_consumption := []
  production_details := []

/-- A fully valid sheet: one raw-material row and two production rows. -/
def sheetOk : ProductionLogSheetDoc where
  name := "PLS-0002"
  production_date := some "2026-01-15"
  production_time := some "10:00:00"
  manufacturing_item := some "FG-BOX"
  raw_material_consumption :=
    [{ item_code := some "RM-PAPER", source_warehouse := some "Raw Material - HEX",
       consumption := some 5, stock_uom := some "Kg" }]
  production_details :=
    [{ item_code := some "FG-BOX", target_warehouse := some "Finished Goods - HEX",
       manufactured_qty := some 100, stock_uom := some "Nos" },
     { item_code := some "SCRAP", target_warehouse := some "Production - HEX",
       manufactured_qty := some 2, stock_uom := none }]

/-! ## Production Log Book closing-stock lookup (`production_log_book.py`)

`get_previous_closing_stock` walks backward through (date, shift)
combinations and returns the first available `closing_stock` for an item.
Production dates are modelled as day indices (ℤ): the Python code parses the
`YYYY-MM-DD` argument with `frappe.utils.getdate` and only ever compares
dates for equality and steps them by whole days (`timedelta(days=1)`). -/

/-- A row of the `Production Log Book Table` child table. -/
structure PLBRow where
  item_code : Option String
  closing_stock : Option ℚ
  deriving Repr, DecidableEq

/-- A submitted-or-draft `Production Log Book` document with its child rows;
`creation` is the framework's creation timestamp used for `order_by`. -/
structure PLBDoc where
  name : String
  production_date : Int
  shift_type : String
  docstatus : Nat
  creation : Nat
  rows : List PLBRow
  deriving Repr, DecidableEq

/-- The `Production Log Book` table as seen by `frappe.get_all`. -/
structure PLBEnv where
  docs : List PLBDoc
  deriving Repr, DecidableEq

/-- `frappe.get_all(..., order_by="creation desc", limit=1)`: the matching
document with the greatest creation timestamp (first row wins ties). -/
def latestDoc (env : PLBEnv) (p : PLBDoc → Bool) : Option PLBDoc :=
  (env.docs.filter p).foldl
    (fun acc d =>
      match acc with
      | none => some d
      | some a => if a.creation < d.creation then some d else some a)
    none

/-- The filters used for one (date, shift) step of the search: matching
production date and shift, submitted only, excluding one name when
`exclude_docname` is truthy (`if exclude_docname:`). -/
def slotFilter (date : Int) (shift : String) (exclude : Option String) (d : PLBDoc) : Bool :=
  d.production_date == date && d.shift_type == shift && d.docstatus == 1 &&
    (match exclude with
     | none => true
     | some ex => if ex = "" then true else !(d.name == ex))

/-- `frappe.get_all("Production Log Book Table", filters={"parent": ...,
"item_code": item}, limit=1)`: the first child row for the item. -/
def childLookup (d : PLBDoc) (item : String) : Option PLBRow :=
  (d.rows.filter fun r => r.item_code == some item).head?

/-- The value one (date, shift) step of the search yields, if any: the
newest submitted document for the slot must have a child row for the item
with a non-empty `closing_stock`. -/
def hitValue (env : PLBEnv) (item : String) (exclude : Option String)
    (slot : Int × String) : Option ℚ :=
  match latestDoc env (slotFilter slot.1 slot.2 exclude) with
  | none => none
  | some doc =>
    match childLookup doc item with
    | none => none
    | some row => row.closing_stock

/-- The `for check_date_obj, check_shift in search_sequence` loop: return the
first slot's value (`flt(...) or 0.0`), else keep walking; 0 when the
sequence is exhausted. -/
def searchSlots (env : PLBEnv) (item : String) (exclude : Option String) :
    List (Int × String) → ℚ
  | [] => 0
  | slot :: rest =>
    match latestDoc env (slotFilter slot.1 slot.2 exclude) with
    | none => searchSlots env item exclude rest
    | some doc =>
      match childLookup doc item with
      | none => searchSlots env item exclude rest
      | some row =>
        match row.closing_stock with
        | none => searchSlots env item exclude rest
        | some v => v

/-- The `while days_checked < max_days_back` loop: append `(date, Night)`
then `(date, Day)` for `n` consecutive dates walking backward from `start`. -/
def buildBackSeq (start : Int) : Nat → List (Int × String)
  | 0 => []
  | n + 1 => (start, "Night") :: (start, "Day") :: buildBackSeq (start - 1) n

/-- `get_previous_closing_stock`: guard the empty arguments, normalise the
shift (`strip().lower()`; `both` is treated as `day`), build the priority
sequence (Night prepends the same-date Day slot; 30 days back at most) and
search it. -/
def get_previous_closing_stock (env : PLBEnv) (item_code : String) (current_date : Int)
    (current_shift : String) (exclude_docname : Option String) : ℚ :=
  if item_code = "" ∨ current_shift = "" then 0
  else
    let s0 := pyLower (pyStrip current_shift)
    let s1 := if s0 = "both" then "day" else s0
    let seqc :=
      if s1 = "night" then
        (current_date, "Day") :: buildBackSeq (current_date - 1) 30
      else
        buildBackSeq (current_date - 1) 30
    searchSlots env item_code exclude_docname seqc

/-- The search order exactly as C3 words it: for `Night`, first `(d, Day)`,
then for each earlier date `d-1 ... d-30` the Night slot before the Day
slot; for `Day`/`Both`, date `d` is skipped and the walk starts at `d-1`. -/
def claimSequence (d : Int) (shift : String) : List (Int × String) :=
  if shift = "Night" then
    (d, "Day") ::
      (List.range 30).flatMap fun i => [(d - ((i : Int) + 1), "Night"), (d - ((i : Int) + 1), "Day")]
  else
    (List.range 30).flatMap fun i => [(d - ((i : Int) + 1), "Night"), (d - ((i : Int) + 1), "Day")]

/-- The result C3 describes: the value of the first slot of the sequence
that yields one, and 0.0 when none does. -/
def claimResult (env : PLBEnv) (item : String) (exclude : Option String)
    (seqc : List (Int × String)) : ℚ :=
  (seqc.findSome? (hitValue env item exclude)).getD 0

/-- A concrete `Production Log Book` with a Day entry on day 99 holding a
closing stock of 12 for item `ITM-1`. -/
def plbEnvEx : PLBEnv where
  docs := [{ name := "PLB-0001", production_date := 99, shift_type := "Day",
             docstatus := 1, creation := 1,
             rows := [{ item_code := some "ITM-1", closing_stock := some 12 }] }]

/-! ## TimeWatch attendance integration (`timewatch_api.py`)

`_fetch_punches_for_date` POSTs to the fixed TimeWatch URL and
`sync_yesterday_attendance` upserts Attendance documents from the punches.
The HTTP transport, `datetime.fromisoformat`, `.date().isoformat()` and
`strftime` are library services and enter as environment oracles: a punch
datetime is a point `t : ℤ` on the timeline, `dtDate t` its date string and
`dtFmt t` its `"%Y-%m-%d %H:%M:%S"` rendering; the ambient clock's
"yesterday" is the environment's `attDate`. -/

/-- One record of the TimeWatch `Data` array. -/
structure TWPunch where
  UserID : Option String
  PunchTime : Option String
  deriving Repr, DecidableEq

/-- The JSON body of a TimeWatch response: an object with `Success`,
`Message` and `Data`, or some other JSON value (`nonDict`). -/
inductive TWJson where
  | dict (success : Bool) (message : Option String) (data : Option (List TWPunch))
  | nonDict
  deriving Repr, DecidableEq

/-- What `requests.post` can produce: a response with a status code and a
JSON body (`none` when the body fails to parse), or a transport failure. -/
inductive TWHttpOutcome where
  | response (status : Nat) (json : Option TWJson)
  | connectionError
  | timeout
  | otherError
  deriving Repr

/-- The request `_fetch_punches_for_date` sends: the fixed URL, the
`X-Api-Key` and `Content-Type` headers, and the JSON body's exact four keys
`FromDate`, `ToDate`, `DeviceID`, `UserID`. -/
structure TWRequest where
  url : String
  apiKey : String
  contentType : String
  FromDate : String
  ToDate : String
  DeviceID : String
  UserID : String
  deriving Repr, DecidableEq

/-- `API_URL` from `timewatch_api.py`. -/
def API_URL : String := "http://45.123.111.150:9006/TimeWatchAPI/GetPunchData"

/-- `API_KEY` from `timewatch_api.py`. -/
def API_KEY : String := "T!meW@tch#123@"

/-- The request body and headers `_fetch_punches_for_date` builds for a
date: `FromDate = ToDate = date_str`, `DeviceID = UserID = ""`. -/
def buildPunchRequest (date_str : String) : TWRequest where
  url := API_URL
  apiKey := API_KEY
  contentType := "application/json"
  FromDate := date_str
  ToDate := date_str
  DeviceID := ""
  UserID := ""

/-- How `_fetch_punches_for_date` turns the HTTP outcome into its
`(punch_list, raw_response)` return value: transport errors and non-JSON
bodies give `([], None)`; a non-200 status or a non-dict / unsuccessful body
gives `([], data)`; otherwise the `Data` list (or `[]`). -/
def fetchResult (o : TWHttpOutcome) : List TWPunch × Option TWJson :=
  match o with
  | .connectionError => ([], none)
  | .timeout => ([], none)
  | .otherError => ([], none)
  | .response status json =>
    match json with
    | none => ([], none)
    | some data =>
      if status != 200 then ([], some data)
      else
        match data with
        | .nonDict => ([], some .nonDict)
        | .dict success message dataList =>
          if !success then ([], some (.dict success message dataList))
          else (dataList.getD [], some (.dict success message dataList))

/-- `_fetch_punches_for_date date_str`: build the request, send it through
the transport, and shape the reply; the request sent is returned alongside
so that theorems can speak about it. -/
def fetchPunchesForDate (net : TWRequest → TWHttpOutcome) (date_str : String) :
    TWRequest × List TWPunch × Option TWJson :=
  (buildPunchRequest date_str, fetchResult (net (buildPunchRequest date_str)))

/-- The punch list C5 describes: the response's `Data` list when the status
is 200 and `Success` is truthy, and the empty list in every other case. -/
def claimPunches (o : TWHttpOutcome) : List TWPunch :=
  match o with
  | .response 200 (some (.dict true _ dataList)) => dataList.getD []
  | _ => []

/-- An `Employee` row as read by `sync_yesterday_attendance`
(`status = "Active"` is already applied by the `get_all` filter). -/
structure Employee where
  name : String
  employee_name : String
  custom_employee_id : Option String
  deriving Repr, DecidableEq

/-- An `Attendance` document (the fields the sync touches). -/
structure AttendanceDoc where
  employee : String
  attendance_date : String
  status : String
  custom_attendance_in_time : Option String
  custom_attendance_out_time : Option String
  docstatus : Nat
  deriving Repr, DecidableEq

/-- The environment of `sync_yesterday_attendance`: the HTTP transport, the
clock's yesterday, the Active employees, the existing Attendance table, and
the datetime oracles. -/
structure SyncEnv where
  net : TWRequest → TWHttpOutcome
  attDate : String
  employees : List Employee
  attendance0 : List AttendanceDoc
  parseDT : String → Option Int
  dtDate : Int → String
  dtFmt : Int → String

/-- The date-filtered valid punches: rows with a truthy `UserID` and
`PunchTime`, a parseable datetime, and the punch date equal to `att_date`. -/
def validPunchTimes (env : SyncEnv) (punches : List TWPunch) : List (String × Int) :=
  punches.filterMap fun row =>
    if strBlank row.UserID then none
    else if strBlank row.PunchTime then none
    else
      match env.parseDT (row.PunchTime.getD "") with
      | none => none
      | some t => if env.dtDate t = env.attDate then some (row.UserID.getD "", t) else none

/-- The user ids in first-appearance order — the key order of the
`defaultdict` the Python loop fills. -/
def keysInOrder (l : List (String × Int)) : List String :=
  l.foldl (fun ks p => if ks.contains p.1 then ks else ks ++ [p.1]) []

/-- The punch times collected for one user id, in arrival order. -/
def timesFor (l : List (String × Int)) (u : String) : List Int :=
  (l.filter fun p => p.1 == u).map (·.2)

/-- The `userid_to_emp` dict: only employees with a truthy
`custom_employee_id` are inserted, later entries overwriting earlier ones. -/
def useridToEmp (emps : List Employee) (uid : String) : Option String :=
  ((((emps.filter fun e => !strBlank e.custom_employee_id).filter
      fun e => e.custom_employee_id == some uid)).getLast?).map (·.name)

/-- `times.sort()` (ascending; ties are equal integers). -/
def sortInts (l : List Int) : List Int :=
  l.insertionSort (· ≤ ·)

/-- Does an Attendance row match the `frappe.db.exists` filters
`{employee, attendance_date}`? -/
def attMatch (e d : String) (a : AttendanceDoc) : Bool :=
  a.employee == e && a.attendance_date == d

/-- Update the document `frappe.db.exists`/`frappe.get_doc` find: the first
row matching the filters. -/
def replaceFirst {α : Type} (p : α → Bool) (f : α → α) : List α → List α
  | [] => []
  | x :: xs => if p x then f x :: xs else x :: replaceFirst p f xs

/-- `if doc.docstatus == 0: doc.submit()` after `doc.save()`. -/
def submitIfDraft (a : AttendanceDoc) : AttendanceDoc :=
  if a.docstatus == 0 then { a with docstatus := 1 } else a

/-- One iteration of the `for userid, times in user_punch_times.items()`
loop: resolve the employee, sort the punches, take first/last as in/out,
double-check the date, and update the existing Attendance or create a new
one, submitting drafts. -/
def processUser (env : SyncEnv) (state : List AttendanceDoc) (uid : String)
    (ts : List Int) : List AttendanceDoc :=
  match useridToEmp env.employees uid with
  | none => state
  | some empName =>
    match sortInts ts with
    | [] => state
    | inT :: restSorted =>
      let outT := if ts.length > 1 then (inT :: restSorted).getLast? else none
      if env.dtDate inT ≠ env.attDate then state
      else
        let status := if outT.isSome then "Present" else "Absent"
        let inStr := some (env.dtFmt inT)
        let outStr := outT.map env.dtFmt
        if state.any (attMatch empName env.attDate) then
          replaceFirst (attMatch empName env.attDate)
            (fun a => submitIfDraft
              { a with
                status := status, attendance_date := env.attDate,
                custom_attendance_in_time := inStr, custom_attendance_out_time := outStr })
            state
        else
          state ++ [submitIfDraft
            { employee := empName, attendance_date := env.attDate, status := status,
              custom_attendance_in_time := inStr, custom_attendance_out_time := outStr,
              docstatus := 0 }]

/-- One iteration of the no-punch loop: employees with a truthy id, no
punches today and no existing Attendance get a fresh `Absent` document. -/
def processNoPunch (env : SyncEnv) (punchUids : List String)
    (state : List AttendanceDoc) (e : Employee) : List AttendanceDoc :=
  if strBlank e.custom_employee_id then state
  else if punchUids.contains (e.custom_employee_id.getD "") then state
  else if state.any (attMatch e.name env.attDate) then state
  else
    state ++ [submitIfDraft
      { employee := e.name, attendance_date := env.attDate, status := "Absent",
        custom_attendance_in_time := none, custom_attendance_out_time := none,
        docstatus := 0 }]

/-- `sync_yesterday_attendance`: fetch yesterday's punches, bail out when
there are none (or no employee has an id, or no punch survives the date
filter), process the users with punches, then mark the rest Absent.  The
result is the final Attendance table; the printed summary dict is not
modelled. -/
def sync_yesterday_attendance (env : SyncEnv) : List AttendanceDoc :=
  let punches := (fetchPunchesForDate env.net env.attDate).2.1
  if punches.isEmpty then env.attendance0
  else if !(env.employees.any fun e => !strBlank e.custom_employee_id) then env.attendance0
  else
    let vp := validPunchTimes env punches
    if vp.isEmpty then env.attendance0
    else
      let keys := keysInOrder vp
      let s1 := (keys.map fun u => (u, timesFor vp u)).foldl
        (fun s g => processUser env s g.1 g.2) env.attendance0
      env.employees.foldl (processNoPunch env keys) s1

/-- The valid punches of a run, as a function of the environment. -/
def syncValidPunches (env : SyncEnv) : List (String × Int) :=
  validPunchTimes env (fetchPunchesForDate env.net env.attDate).2.1

/-- The punch times collected for one user id in a run. -/
def userTimes (env : SyncEnv) (uid : String) : List Int :=
  timesFor (syncValidPunches env) uid

/-- How many Attendance documents exist for an employee and date. -/
def countAtt (s : List AttendanceDoc) (e d : String) : Nat :=
  (s.filter (attMatch e d)).length

/-- Does an Attendance document exist for an employee and date
(`frappe.db.exists`)? -/
def hasAtt (s : List AttendanceDoc) (e d : String) : Bool :=
  s.any (attMatch e d)

/-- The final table contains an Attendance with the given fields. -/
def attHas (s : List AttendanceDoc) (e d status : String)
    (inT outT : Option String) : Prop :=
  ∃ a ∈ s, a.employee = e ∧ a.attendance_date = d ∧ a.status = status ∧
    a.custom_attendance_in_time = inT ∧ a.custom_attendance_out_time = outT

/-- A concrete TimeWatch transport: always 200/Success with two punches for
`U1` and one for `U2`. -/
def twNetEx : TWRequest → TWHttpOutcome := fun _ =>
  .response 200 (some (.dict true (some "ok") (some
    [{ UserID := some "U1", PunchTime := some "2026-02-01T08:00:00" },
     { UserID := some "U1", PunchTime := some "2026-02-01T17:00:00" },
     { UserID := some "U2", PunchTime := some "2026-02-01T09:00:00" }])))

/-- A concrete sync environment: two active employees, one existing
Attendance for `EMP-1`, and datetime oracles over three known strings. -/
def syncEnvEx : SyncEnv where
  net := twNetEx
  attDate := "2026-02-01"
  employees :=
    [{ name := "EMP-1", employee_name := "Asha", custom_employee_id := some "U1" },
     { name := "EMP-2", employee_name := "Binod", custom_employee_id := some "U2" }]
  attendance0 :=
    [{ employee := "EMP-1", attendance_date := "2026-02-01", status := "Present",
       custom_attendance_in_time := none, custom_attendance_out_time := none,
       docstatus := 1 }]
  parseDT := fun s =>
    if s = "2026-02-01T08:00:00" then some 800
    else if s = "2026-02-01T17:00:00" then some 1700
    else if s = "2026-02-01T09:00:00" then some 900
    else none
  dtDate := fun _ => "2026-02-01"
  dtFmt := fun t => toString t

/-! ## Stock alert task (`tasks.py` / `stock_utils.py`)

`check_stock_levels_and_send_alert` compares each qualifying item's stock
across three fixed warehouses against its safety stock and prepares a red or
green alert email.  The email transport (`frappe.sendmail`) and the log
output are outside the model; the outcome records which email was prepared. -/

/-- A row of the `Bin` table (fields may be NULL). -/
structure BinEntry where
  item_code : String
  warehouse : String
  actual_qty : Option ℚ
  reserved_qty : Option ℚ
  ordered_qty : Option ℚ
  projected_qty : Option ℚ
  deriving Repr, DecidableEq

/-- An `Item` row (the fields the task reads). -/
structure StockItem where
  name : String
  item_name : String
  disabled : Bool
  safety_stock : ℚ
  deriving Repr, DecidableEq

/-- The database as seen by the stock alert task. -/
structure StockEnv where
  items : List StockItem
  bins : List BinEntry
  deriving Repr

/-- `frappe.db.get_value("Bin", {"item_code": ..., "warehouse": ...}, f)`:
the field of the first matching Bin row, `none` when no row matches or the
field is NULL. -/
def binField (env : StockEnv) (item wh : String) (f : BinEntry → Option ℚ) : Option ℚ :=
  ((env.bins.filter fun b => b.item_code == item && b.warehouse == wh).head?).bind f

/-- The dict `get_item_stock_quantity` returns (the task only reads
`actual_qty`; the `warehouses` key of the aggregate branch is not kept). -/
structure StockQtyInfo where
  item_code : String
  warehouse : String
  actual_qty : ℚ
  reserved_qty : ℚ
  ordered_qty : ℚ
  projected_qty : ℚ
  deriving Repr, DecidableEq

/-- `get_item_stock_quantity`: with a warehouse, each field is a direct
`get_value ... or 0`; with none, the fields are summed over every Bin row of
the item (`or 0` per row), zeros when the item has no Bin rows. -/
def get_item_stock_quantity (env : StockEnv) (item_code : String)
    (warehouse : Option String) : StockQtyInfo :=
  match warehouse with
  | some wh =>
    { item_code := item_code, warehouse := wh,
      actual_qty := (binField env item_code wh (·.actual_qty)).getD 0,
      reserved_qty := (binField env item_code wh (·.reserved_qty)).getD 0,
      ordered_qty := (binField env item_code wh (·.ordered_qty)).getD 0,
      projected_qty := (binField env item_code wh (·.projected_qty)).getD 0 }
  | none =>
    let rows := env.bins.filter fun b => b.item_code == item_code
    if rows.isEmpty then
      { item_code := item_code, warehouse := "All Warehouses",
        actual_qty := 0, reserved_qty := 0, ordered_qty := 0, projected_qty := 0 }
    else
      { item_code := item_code, warehouse := "All Warehouses",
        actual_qty := (rows.map fun b => b.actual_qty.getD 0).sum,
        reserved_qty := (rows.map fun b => b.reserved_qty.getD 0).sum,
        ordered_qty := (rows.map fun b => b.ordered_qty.getD 0).sum,
        projected_qty := (rows.map fun b => b.projected_qty.getD 0).sum }

/-- The three warehouses the scheduled task checks. -/
def alertWarehouses : List String :=
  ["Production - HEX", "Raw Material - HEX", "Finished Goods - HEX"]

/-- The task's per-item total: `actual_qty` (`or 0`) summed over the three
warehouses, in order. -/
def totalStock (env : StockEnv) (item_code : String) : ℚ :=
  (alertWarehouses.map fun wh =>
    (get_item_stock_quantity env item_code (some wh)).actual_qty).sum

/-- One entry of the `low_stock_items` list the task builds. -/
structure LowStockItem where
  item_code : String
  item_name : String
  safety_stock : ℚ
  current_stock : ℚ
  warehouse_stocks : List (String × ℚ)
  deriving Repr, DecidableEq

/-- The `low_stock_items` list: among enabled items with positive safety
stock, those whose three-warehouse total is strictly below it. -/
def lowStockItems (env : StockEnv) : List LowStockItem :=
  (env.items.filter fun i => !i.disabled && 0 < i.safety_stock).filterMap fun item =>
    if totalStock env item.name < item.safety_stock then
      some { item_code := item.name, item_name := item.item_name,
             safety_stock := item.safety_stock,
             current_stock := totalStock env item.name,
             warehouse_stocks := alertWarehouses.map fun wh =>
               (wh, (get_item_stock_quantity env item.name (some wh)).actual_qty) }
    else none

/-- Which email the task prepares: none at all (early return when no item
qualifies), the red low-stock alert, or the green all-clear. -/
inductive AlertOutcome where
  | noItems
  | red (lowItems : List LowStockItem)
  | green
  deriving Repr, DecidableEq

/-- `check_stock_levels_and_send_alert`: logs and returns when no enabled
item has positive safety stock; otherwise prepares the red email with the
low-stock list when it is non-empty and the green email when it is empty. -/
def check_stock_levels_and_send_alert (env : StockEnv) : AlertOutcome :=
  let items := env.items.filter fun i => !i.disabled && 0 < i.safety_stock
  if items.isEmpty then .noItems
  else if (lowStockItems env).isEmpty then .green
  else .red (lowStockItems env)

/-- A database with no items at all. -/
def stockEnvEmpty : StockEnv where
  items := []
  bins := []

/-- A database with one enabled item below its safety stock. -/
def stockEnvLow : StockEnv where
  items := [{ name := "ITEM-A", item_name := "Item A", disabled := false,
              safety_stock := 10 }]
  bins := [{ item_code := "ITEM-A", warehouse := "Production - HEX",
             actual_qty := some 2, reserved_qty := none, ordered_qty := none,
             projected_qty := none },
           { item_code := "ITEM-A", warehouse := "Raw Material - HEX",
             actual_qty := some 3, reserved_qty := none, ordered_qty := none,
             projected_qty := none }]

/-! ## Whitelisted API error handling (`production_log_book.py` /
`sales_summary_dashboard.py`)

The two handlers C2 cites are modelled end to end: a raisable database layer
enters as the environment flag `dbError`.  `get_overview_data` follows the
log-and-return-zeros pattern; `get_bom_items_only` logs and then re-raises
via `frappe.throw`. -/

/-- A row returned by the BOM Item query. -/
structure BomItem where
  item_code : String
  qty : ℚ
  uom : String
  description : String
  item_name : String
  item_type : String
  deriving Repr, DecidableEq

/-- The database as seen by `get_bom_items_only`; `dbError` injects an
unexpected exception inside the handler's body. -/
structure BomEnv where
  bomExists : String → Bool
  bomItems : String → List BomItem
  dbError : Bool

/-- The body of `get_bom_items_only` (the code inside the `try`): empty name
gives `[]`, a missing BOM raises, a database failure raises, otherwise the
BOM Item rows are tagged `item_type = "BOM Item"`. -/
def bomItemsBody (env : BomEnv) (bom_name : String) : Except String (List BomItem) :=
  if bom_name = "" then .ok []
  else if !env.bomExists bom_name then .error ("BOM " ++ bom_name ++ " does not exist")
  else if env.dbError then .error "database error"
  else .ok ((env.bomItems bom_name).map fun i => { i with item_type := "BOM Item" })

/-- `get_bom_items_only`: any exception of the body (including the
missing-BOM `frappe.throw`, whose `ValidationError` lands in
`except Exception`) is logged and re-raised as "Error fetching BOM items" —
the error propagates to the caller. -/
def get_bom_items_only (env : BomEnv) (bom_name : String) : Except String (List BomItem) :=
  match bomItemsBody env bom_name with
  | .ok v => .ok v
  | .error _ => .error "Error fetching BOM items"

/-- A `Sales Order` row (the columns the overview query reads). -/
structure SORow where
  docstatus : Nat
  transaction_date : Int
  customer : String
  grand_total : ℚ
  deriving Repr, DecidableEq

/-- A `Sales Invoice` row (the columns the overview query reads). -/
structure SIRow where
  docstatus : Nat
  posting_date : Int
  customer : String
  grand_total : ℚ
  deriving Repr, DecidableEq

/-- The database as seen by `get_overview_data` (dates as day indices). -/
structure SalesEnv where
  salesOrders : List SORow
  salesInvoices : List SIRow
  dbError : Bool

/-- The WHERE clause `get_date_filter_sql` builds: a lower bound when
`from_date` is given and an upper bound when `to_date` is. -/
def dateFilterOk (from_date to_date : Option Int) (d : Int) : Bool :=
  (match from_date with
   | none => true
   | some f => f ≤ d) &&
  (match to_date with
   | none => true
   | some t => d ≤ t)

/-- The WHERE clause `get_customer_filter_sql` builds (`if not customer`
treats an empty string as no filter). -/
def customerFilterOk (customer : Option String) (c : String) : Bool :=
  match customer with
  | none => true
  | some s => if s = "" then true else c == s

/-- `flt(x, 2)`: round to two decimal places (frappe rounds the float;
half-way behaviour is immaterial to any verified property). -/
def roundTo2 (q : ℚ) : ℚ :=
  (round (q * 100) : ℤ) / 100

/-- The dict `get_overview_data` returns. -/
structure OverviewData where
  total_sales_orders : Nat
  total_sales_invoices : Nat
  total_order_value : ℚ
  total_invoice_value : ℚ
  deriving Repr, DecidableEq

/-- The zero placeholder of `get_overview_data`'s `except` branch. -/
def zeroOverview : OverviewData where
  total_sales_orders := 0
  total_sales_invoices := 0
  total_order_value := 0
  total_invoice_value := 0

/-- `get_overview_data`: count and sum submitted Sales Orders and Sales
Invoices under the date/customer filters; on any exception, log the
traceback and return the zero placeholder. -/
def get_overview_data (env : SalesEnv) (from_date to_date : Option Int)
    (customer : Option String) : OverviewData :=
  if env.dbError then zeroOverview
  else
    let so := env.salesOrders.filter fun r =>
      r.docstatus == 1 && dateFilterOk from_date to_date r.transaction_date &&
        customerFilterOk customer r.customer
    let si := env.salesInvoices.filter fun r =>
      r.docstatus == 1 && dateFilterOk from_date to_date r.posting_date &&
        customerFilterOk customer r.customer
    { total_sales_orders := so.length,
      total_sales_invoices := si.length,
      total_order_value := roundTo2 (so.map (·.grand_total)).sum,
      total_invoice_value := roundTo2 (si.map (·.grand_total)).sum }

/-- A BOM environment whose database raises. -/
def bomEnvErr : BomEnv where
  bomExists := fun _ => true
  bomItems := fun _ => []
  dbError := true

/-- A sales environment whose database raises. -/
def salesEnvErr : SalesEnv where
  salesOrders := []
  salesInvoices := []
  dbError := true

/-! ## Theorems -/

/-- Closed form of the `validate` loop: the day/night totals are the sums of
the row totals over rows of the matching shift, the overall total sums every
row, and each row's `row_total_rejection` is overwritten with its own total. -/
theorem validateRows_eq (l : List RejRow) :
    validateRows l =
      (((l.filter fun r => r.shift_type = some "Day").map rowTotal).sum,
       ((l.filter fun r => r.shift_type = some "Night").map rowTotal).sum,
       (l.map rowTotal).sum,
       l.map fun r => { r with row_total_rejection := some (rowTotal r) }) := by
  induction l with
  | nil => simp [validateRows]
  | cons r rs ih =>
    simp only [validateRows, ih]
    by_cases hd : r.shift_type = some "Day"
    · simp [hd, List.filter_cons]
    · by_cases hn : r.shift_type = some "Night"
      · simp [hd, hn, List.filter_cons]
      · simp [hd, hn, List.filter_cons]

/-- A list of rationals that are all nonnegative sums to zero exactly when
every entry is zero. -/
theorem sum_eq_zero_iff_of_nonneg (l : List ℚ) (h : ∀ x ∈ l, 0 ≤ x) :
    l.sum = 0 ↔ ∀ x ∈ l, x = 0 := by
  induction l with
  | nil => simp
  | cons a as ih =>
    have ha : 0 ≤ a := h a (List.mem_cons_self a as)
    have has : ∀ x ∈ as, 0 ≤ x := fun x hx => h x (List.mem_cons_of_mem a hx)
    have hsum : 0 ≤ as.sum := List.sum_nonneg has
    constructor
    · intro h0
      have h0' : a + as.sum = 0 := by simpa using h0
      have ha0 : a = 0 := by linarith
      have hs0 : as.sum = 0 := by linarith
      intro x hx
      rcases List.mem_cons.mp hx with rfl | hx'
      · exact ha0
      · exact (ih has).mp hs0 x hx'
    · intro hall
      have ha0 : a = 0 := hall a (List.mem_cons_self a as)
      have hs0 : as.sum = 0 := (ih has).mpr fun x hx => hall x (List.mem_cons_of_mem a hx)
      simp [ha0, hs0]

/-- The overall rejection total splits into the Day rows, the Night rows,
and the rows whose shift type is neither. -/
theorem rowTotal_sum_partition (l : List RejRow) :
    (l.map rowTotal).sum =
      ((l.filter fun r => r.shift_type = some "Day").map rowTotal).sum +
        ((l.filter fun r => r.shift_type = some "Night").map rowTotal).sum +
        ((l.filter fun r =>
            ¬(r.shift_type = some "Day" ∨ r.shift_type = some "Night")).map rowTotal).sum := by
  induction l with
  | nil => simp
  | cons r rs ih =>
    by_cases hd : r.shift_type = some "Day"
    · simp only [List.map_cons, List.sum_cons, List.filter_cons, ih]
      simp [hd]
      ring
    · by_cases hn : r.shift_type = some "Night"
      · simp only [List.map_cons, List.sum_cons, List.filter_cons, ih]
        simp [hd, hn]
        ring
      · simp only [List.map_cons, List.sum_cons, List.filter_cons, ih]
        simp [hd, hn]
        ring

/-- C4: after `DailyRejectionData.validate` runs, `total_rejection` is the sum
over all child rows of the five rejection fields (empty values as 0), each
row's `row_total_rejection` is that row's five-field sum, and `rejection_in_`
is `total_rejection / total_box_checked * 100` when `total_box_checked > 0`
and `0` otherwise. -/
theorem validate_totals (doc : DailyRejectionData) :
    (doc.validate).total_rejection = (doc.table_zsze.map rowTotal).sum ∧
    (doc.validate).table_zsze.map (·.row_total_rejection) =
      doc.table_zsze.map (fun r => some (rowTotal r)) ∧
    (∀ t, doc.total_box_checked = some t → 0 < t →
      (doc.validate).rejection_in_ = (doc.validate).total_rejection / t * 100) ∧
    (∀ t, doc.total_box_checked = some t → t ≤ 0 → (doc.validate).rejection_in_ = 0) ∧
    (doc.total_box_checked = none → (doc.validate).rejection_in_ = 0) := by
  refine ⟨?_, ?_, ?_, ?_, ?_⟩
  · simp [DailyRejectionData.validate, validateRows_eq]
  · simp [DailyRejectionData.validate, validateRows_eq, Function.comp]
  · intro t ht hpos
    simp [DailyRejectionData.validate, validateRows_eq, ht, hpos]
  · intro t ht hle
    have : ¬ 0 < t := not_lt.mpr hle
    simp [DailyRejectionData.validate, validateRows_eq, ht, this]
  · intro ht
    simp [DailyRejectionData.validate, validateRows_eq, ht]

/-- C4 witness: the totals theorem evaluated on a concrete document. -/
theorem validate_totals_witness :
    rejDocMixed.total_box_checked = some 100 ∧ (0 : ℚ) < 100 ∧
      (rejDocMixed.validate).rejection_in_ =
        (rejDocMixed.validate).total_rejection / 100 * 100 :=
  ⟨rfl, by norm_num, (validate_totals rejDocMixed).2.2.1 100 rfl (by norm_num)⟩

/-- C10 counterexample: for the document `rejDocBoth` (one `Both` row with no
rejections) the day and night shift totals sum exactly to `total_rejection`,
yet not every child row has shift type `Day` or `Night` — refuting the claim
that equality holds exactly when every row is a Day or Night row. -/
theorem shift_total_equality_counterexample :
    (rejDocBoth.validate).total_rejected_in_day_shift +
        (rejDocBoth.validate).total_rejected_in_night_shift =
      (rejDocBoth.validate).total_rejection ∧
    ¬(∀ r ∈ rejDocBoth.table_zsze,
        r.shift_type = some "Day" ∨ r.shift_type = some "Night") := by
  constructor
  · norm_num [rejDocBoth, rejRowBoth, DailyRejectionData.validate, validateRows, rowTotal]
  · intro hall
    have := hall rejRowBoth (by simp [rejDocBoth])
    simp [rejRowBoth] at this

/-- C10 (amended): when every child row's five-field total is nonnegative,
`total_rejected_in_day_shift + total_rejected_in_night_shift ≤ total_rejection`,
with equality exactly when every row whose shift type is neither `Day` nor
`Night` has a zero row total; such rows count toward `total_rejection` but
toward neither shift total. -/
theorem shift_totals_bound (doc : DailyRejectionData)
    (h : ∀ r ∈ doc.table_zsze, 0 ≤ rowTotal r) :
    (doc.validate).total_rejected_in_day_shift =
      ((doc.table_zsze.filter fun r => r.shift_type = some "Day").map rowTotal).sum ∧
    (doc.validate).total_rejected_in_night_shift =
      ((doc.table_zsze.filter fun r => r.shift_type = some "Night").map rowTotal).sum ∧
    (doc.validate).total_rejected_in_day_shift +
        (doc.validate).total_rejected_in_night_shift ≤ (doc.validate).total_rejection ∧
    ((doc.validate).total_rejected_in_day_shift +
          (doc.validate).total_rejected_in_night_shift = (doc.validate).total_rejection ↔
      ∀ r ∈ doc.table_zsze,
        ¬(r.shift_type = some "Day" ∨ r.shift_type = some "Night") → rowTotal r = 0) := by
  have hothers : ∀ x ∈ ((doc.table_zsze.filter fun r =>
      ¬(r.shift_type = some "Day" ∨ r.shift_type = some "Night")).map rowTotal), 0 ≤ x := by
    intro x hx
    rcases List.mem_map.mp hx with ⟨r, hr, rfl⟩
    exact h r (List.mem_of_mem_filter hr)
  have hsumO : 0 ≤ ((doc.table_zsze.filter fun r =>
      ¬(r.shift_type = some "Day" ∨ r.shift_type = some "Night")).map rowTotal).sum :=
    List.sum_nonneg hothers
  have hday : (doc.validate).total_rejected_in_day_shift =
      ((doc.table_zsze.filter fun r => r.shift_type = some "Day").map rowTotal).sum := by
    simp [DailyRejectionData.validate, validateRows_eq]
  have hnight : (doc.validate).total_rejected_in_night_shift =
      ((doc.table_zsze.filter fun r => r.shift_type = some "Night").map rowTotal).sum := by
    simp [DailyRejectionData.validate, validateRows_eq]
  have htot : (doc.validate).total_rejection = (doc.table_zsze.map rowTotal).sum := by
    simp [DailyRejectionData.validate, validateRows_eq]
  refine ⟨hday, hnight, ?_, ?_⟩
  · rw [hday, hnight, htot, rowTotal_sum_partition doc.table_zsze]
    linarith
  · rw [hday, hnight, htot, rowTotal_sum_partition doc.table_zsze]
    have hzero := sum_eq_zero_iff_of_nonneg _ hothers
    constructor
    · intro heq
      have hO : ((doc.table_zsze.filter fun r =>
          ¬(r.shift_type = some "Day" ∨ r.shift_type = some "Night")).map rowTotal).sum = 0 := by
        linarith
      intro r hr hshift
      have hrf : r ∈ doc.table_zsze.filter fun r =>
          ¬(r.shift_type = some "Day" ∨ r.shift_type = some "Night") := by
        simp only [List.mem_filter, decide_eq_true_eq]
        exact ⟨hr, hshift⟩
      exact hzero.mp hO (rowTotal r) (List.mem_map.mpr ⟨r, hrf, rfl⟩)
    · intro hall
      have hO : ((doc.table_zsze.filter fun r =>
          ¬(r.shift_type = some "Day" ∨ r.shift_type = some "Night")).map rowTotal).sum = 0 := by
        apply hzero.mpr
        intro x hx
        rcases List.mem_map.mp hx with ⟨r, hr, rfl⟩
        rcases List.mem_filter.mp hr with ⟨hrm, hrp⟩
        exact hall r hrm (by simpa using hrp)
      linarith

/-- An optional string that is not blank is present. -/
theorem isSome_of_not_strBlank {o : Option String} (h : strBlank o = false) : o.isSome := by
  cases o <;> simp_all [strBlank]

/-- When every consumption row with an item code has a source warehouse, the
raw-material loop succeeds and yields exactly the rows with an item code and
a positive consumption, in order. -/
theorem buildSourceRows_eq (l : List RMRow)
    (h : ∀ r ∈ l, strBlank r.item_code = false → strBlank r.source_warehouse = false) :
    buildSourceRows l =
      .ok ((l.filter fun r => !strBlank r.item_code && posQ r.consumption).map srcItemOfRow) := by
  induction l with
  | nil => simp [buildSourceRows]
  | cons r rs ih =>
    have hr := h r (List.mem_cons_self r rs)
    have hrs : ∀ x ∈ rs, strBlank x.item_code = false → strBlank x.source_warehouse = false :=
      fun x hx => h x (List.mem_cons_of_mem r hx)
    by_cases hb : strBlank r.item_code = true
    · simp [buildSourceRows, hb, ih hrs, List.filter_cons]
    · have hb' : strBlank r.item_code = false := by simpa using hb
      have hw := hr hb'
      by_cases hc : posQ r.consumption = true
      · simp [buildSourceRows, hb', hw, hc, ih hrs, List.filter_cons, Except.bind]
      · have hc' : posQ r.consumption = false := by simpa using hc
        simp [buildSourceRows, hb', hw, hc', ih hrs, List.filter_cons]

/-- When every production row with an item code has a target warehouse and a
resolvable stock UOM, the production-details loop succeeds, its rows project
(item, qty, warehouse) exactly onto the rows with an item code and a positive
manufactured qty, and every built row is a pure target row. -/
theorem buildTargetRows_spec (env : SubmitEnv) (mi : Option String) (l : List PDRow)
    (h : ∀ r ∈ l, strBlank r.item_code = false →
      strBlank r.target_warehouse = false ∧ strBlank (resolveUom env r) = false) :
    ∀ marked : Bool, ∃ tgt,
      buildTargetRows env mi l marked = .ok tgt ∧
      tgt.map tgtProj =
        ((l.filter fun r => !strBlank r.item_code && posQ r.manufactured_qty).map
          fun r => (r.item_code.getD "", r.manufactured_qty.getD 0, r.target_warehouse)) ∧
      ∀ i ∈ tgt, i.s_warehouse = none ∧ i.t_warehouse.isSome := by
  induction l with
  | nil => intro marked; exact ⟨[], rfl, by simp, by simp⟩
  | cons r rs ih =>
    intro marked
    have hr := h r (List.mem_cons_self r rs)
    have hrs : ∀ x ∈ rs, strBlank x.item_code = false →
        strBlank x.target_warehouse = false ∧ strBlank (resolveUom env x) = false :=
      fun x hx => h x (List.mem_cons_of_mem r hx)
    by_cases hb : strBlank r.item_code = true
    · obtain ⟨tgt, he, hp, hm⟩ := ih hrs marked
      exact ⟨tgt, by simp [buildTargetRows, hb, he], by simp [List.filter_cons, hb, hp], hm⟩
    · have hb' : strBlank r.item_code = false := by simpa using hb
      obtain ⟨hw, hu⟩ := hr hb'
      by_cases hq : posQ r.manufactured_qty = true
      · obtain ⟨tgt, he, hp, hm⟩ :=
          ih hrs (marked || (r.item_code == mi || !marked))
        refine ⟨tgtItemOfRow r ((resolveUom env r).getD "") (r.item_code == mi || !marked) :: tgt,
          ?_, ?_, ?_⟩
        · simp [buildTargetRows, hb', hw, hq, hu, he, Except.bind]
        · simp [List.filter_cons, hb', hq, hp, tgtProj, tgtItemOfRow]
        · intro i hi
          rcases List.mem_cons.mp hi with rfl | hi'
          · exact ⟨rfl, isSome_of_not_strBlank hw⟩
          · exact hm i hi'
      · have hq' : posQ r.manufactured_qty = false := by simpa using hq
        obtain ⟨tgt, he, hp, hm⟩ := ih hrs marked
        exact ⟨tgt, by simp [buildTargetRows, hb', hw, hq', he],
          by simp [List.filter_cons, hb', hq', hp], hm⟩

/-- C1 counterexample: `sheetNoDate` is submitted with no linked Stock Entry,
yet `on_submit` creates nothing — it raises the missing-date validation
error — refuting the claim that every submitted sheet without a linked
Stock Entry gets exactly one Stock Entry created. -/
theorem on_submit_counterexample :
    existsLinkedStockEntry submitEnvClean sheetNoDate.name = false ∧
    (sheetNoDate.on_submit submitEnvClean).created = none ∧
    (sheetNoDate.on_submit submitEnvClean).error =
      some "Production Date and Production Time are required to create Stock Entry." :=
  ⟨rfl, rfl, rfl⟩

/-- C1 (amended): when a non-cancelled Stock Entry is already linked,
`on_submit` returns without creating another; when none is linked, the
dates are present, the validations pass (a consumption row and a production
row with an item code and positive quantity exist, rows with item codes
have their warehouses and UOMs) and the framework steps succeed, it creates
and submits exactly one `Manufacture` Stock Entry with the sheet's posting
date/time whose source rows are exactly the consumption rows with an item
code and positive consumption and whose target rows are exactly the
production rows with an item code and positive manufactured qty. -/
theorem on_submit_success (env : SubmitEnv) (sheet : ProductionLogSheetDoc) :
    (existsLinkedStockEntry env sheet.name = true →
      sheet.on_submit env = { error := none, created := none, stock_entry_no := none }) ∧
    (existsLinkedStockEntry env sheet.name = false →
    strBlank sheet.production_date = false →
    strBlank sheet.production_time = false →
    (sheet.raw_material_consumption.any
      fun d => !strBlank d.item_code && posQ d.consumption) = true →
    (sheet.production_details.any
      fun d => !strBlank d.item_code && posQ d.manufactured_qty) = true →
    (∀ r ∈ sheet.raw_material_consumption,
      strBlank r.item_code = false → strBlank r.source_warehouse = false) →
    (∀ r ∈ sheet.production_details, strBlank r.item_code = false →
      strBlank r.target_warehouse = false ∧ strBlank (resolveUom env r) = false) →
    env.frameworkError = none →
    ∃ se : StockEntry,
      sheet.on_submit env =
        { error := none, created := some se, stock_entry_no := some se.name } ∧
      se.name = env.newStockEntryName ∧
      se.stock_entry_type = "Manufacture" ∧
      sheet.production_date = some se.posting_date ∧
      sheet.production_time = some se.posting_time ∧
      se.production_log_sheet = sheet.name ∧
      ((se.items.filter fun i => i.t_warehouse.isNone).map srcProj =
        ((sheet.raw_material_consumption.filter
            fun r => !strBlank r.item_code && posQ r.consumption).map
          fun r => (r.item_code.getD "", r.consumption.getD 0, r.source_warehouse, 0))) ∧
      (∀ i ∈ se.items, i.t_warehouse.isNone → i.s_warehouse.isSome ∧ i.is_finished_item = 0) ∧
      ((se.items.filter fun i => i.s_warehouse.isNone).map tgtProj =
        ((sheet.production_details.filter
            fun r => !strBlank r.item_code && posQ r.manufactured_qty).map
          fun r => (r.item_code.getD "", r.manufactured_qty.getD 0, r.target_warehouse))) ∧
      (∀ i ∈ se.items, i.s_warehouse.isNone → i.t_warehouse.isSome)) := by
  constructor
  · intro h
    unfold ProductionLogSheetDoc.on_submit
    rw [if_pos h]
  intro hlink hdate htime hcons hpd hsw htw hfw
  obtain ⟨tgt, htgt, htgtproj, htgtmem⟩ :=
    buildTargetRows_spec env sheet.manufacturing_item sheet.production_details htw false
  have hsrc := buildSourceRows_eq sheet.raw_material_consumption hsw
  set src := ((sheet.raw_material_consumption.filter
      fun r => !strBlank r.item_code && posQ r.consumption).map srcItemOfRow) with hsrcdef
  have hsrcmem : ∀ i ∈ src, i.t_warehouse = none ∧ i.s_warehouse.isSome ∧
      i.is_finished_item = 0 := by
    intro i hi
    rcases List.mem_map.mp hi with ⟨r, hrf, rfl⟩
    rcases List.mem_filter.mp hrf with ⟨hrm, hrp⟩
    have hb : strBlank r.item_code = false := by
      have hrp' : (!strBlank r.item_code && posQ r.consumption) = true := by simpa using hrp
      rw [Bool.and_eq_true] at hrp'
      simpa using hrp'.1
    exact ⟨rfl, isSome_of_not_strBlank (hsw r hrm hb), rfl⟩
  have hcons0 : (sheet.raw_material_consumption.any fun d => posQ d.consumption) = true := by
    rcases List.any_eq_true.mp hcons with ⟨d, hd, hp⟩
    rw [Bool.and_eq_true] at hp
    exact List.any_eq_true.mpr ⟨d, hd, hp.2⟩
  have hpd0 : (sheet.production_details.any fun d => posQ d.manufactured_qty) = true := by
    rcases List.any_eq_true.mp hpd with ⟨d, hd, hp⟩
    rw [Bool.and_eq_true] at hp
    exact List.any_eq_true.mpr ⟨d, hd, hp.2⟩
  have hrm_ne : sheet.raw_material_consumption.isEmpty = false := by
    rcases List.any_eq_true.mp hcons0 with ⟨d, hd, _⟩
    cases hl : sheet.raw_material_consumption with
    | nil => rw [hl] at hd; simp at hd
    | cons a as => simp
  -- the positive-consumption row with an item code survives the filter
  have hsrc_ne : src ≠ [] := by
    rcases List.any_eq_true.mp hcons with ⟨d, hd, hp⟩
    have hdm : d ∈ sheet.raw_material_consumption.filter
        (fun r => !strBlank r.item_code && posQ r.consumption) :=
      List.mem_filter.mpr ⟨hd, hp⟩
    intro hnil
    rw [hsrcdef] at hnil
    have hfil := List.map_eq_nil_iff.mp hnil
    rw [hfil] at hdm
    simp at hdm
  have hitems_ne : (src ++ tgt).isEmpty = false := by
    cases hs : src with
    | nil => exact absurd hs hsrc_ne
    | cons a as => simp
  refine ⟨{ name := env.newStockEntryName,
            stock_entry_type := "Manufacture",
            posting_date := sheet.production_date.getD "",
            posting_time := sheet.production_time.getD "",
            set_posting_time := 1,
            items := src ++ tgt,
            production_log_sheet := sheet.name }, ?_, rfl, rfl, ?_, ?_, rfl, ?_, ?_, ?_, ?_⟩
  · unfold ProductionLogSheetDoc.on_submit
    rw [hsrc, htgt]
    simp only [hlink, hdate, htime, hrm_ne, hcons0, hpd0, hfw, hitems_ne,
      Bool.or_self, Bool.not_false, Bool.false_or, if_false, if_true]
    simp [hitems_ne]
  · cases hpd' : sheet.production_date with
    | none => rw [hpd'] at hdate; simp [strBlank] at hdate
    | some s => simp
  · cases hpt' : sheet.production_time with
    | none => rw [hpt'] at htime; simp [strBlank] at htime
    | some s => simp
  · -- source rows project exactly onto the qualifying consumption rows
    have h1 : src.filter (fun i => i.t_warehouse.isNone) = src :=
      List.filter_eq_self.mpr fun a ha => by simp [(hsrcmem a ha).1]
    have h2 : tgt.filter (fun i => i.t_warehouse.isNone) = [] :=
      List.filter_eq_nil_iff.mpr fun a ha => by
        have := (htgtmem a ha).2
        simp only [Option.isNone_iff_eq_none]
        intro hEq
        rw [hEq] at this
        simp at this
    simp only [List.filter_append, h1, h2, List.append_nil, hsrcdef, List.map_map]
    rfl
  · intro i hi hnone
    rcases List.mem_append.mp hi with hi' | hi'
    · exact ⟨(hsrcmem i hi').2.1, (hsrcmem i hi').2.2⟩
    · have := (htgtmem i hi').2
      rw [Option.isNone_iff_eq_none] at hnone
      rw [hnone] at this
      simp at this
  · -- target rows project exactly onto the qualifying production rows
    have h1 : src.filter (fun i => i.s_warehouse.isNone) = [] :=
      List.filter_eq_nil_iff.mpr fun a ha => by
        have := (hsrcmem a ha).2.1
        simp only [Option.isNone_iff_eq_none]
        intro hEq
        rw [hEq] at this
        simp at this
    have h2 : tgt.filter (fun i => i.s_warehouse.isNone) = tgt :=
      List.filter_eq_self.mpr fun a ha => by simp [(htgtmem a ha).1]
    simp only [List.filter_append, h1, h2, List.nil_append]
    exact htgtproj
  · intro i hi hnone
    rcases List.mem_append.mp hi with hi' | hi'
    · have := (hsrcmem i hi').2.1
      rw [Option.isNone_iff_eq_none] at hnone
      rw [hnone] at this
      simp at this
    · exact (htgtmem i hi').2

/-- C10 witness: the amended bound evaluated on a concrete document with a
`Day` row and a shift-less row carrying a positive rejection count. -/
theorem shift_totals_bound_witness :
    (∀ r ∈ rejDocMixed.table_zsze, 0 ≤ rowTotal r) ∧
      (rejDocMixed.validate).total_rejected_in_day_shift +
          (rejDocMixed.validate).total_rejected_in_night_shift ≤
        (rejDocMixed.validate).total_rejection := by
  have hnn : ∀ r ∈ rejDocMixed.table_zsze, 0 ≤ rowTotal r := by
    intro r hr
    rcases List.mem_cons.mp hr with rfl | hr'
    · norm_num [rowTotal, rejRowDay]
    · rcases List.mem_singleton.mp hr' with rfl
      norm_num [rowTotal, rejRowNoShift]
  exact ⟨hnn, (shift_totals_bound rejDocMixed hnn).2.2.1⟩

/-- C1 witness: the success theorem evaluated on a concrete valid sheet. -/
theorem on_submit_success_witness :
    ∃ se : StockEntry,
      sheetOk.on_submit submitEnvClean =
        { error := none, created := some se, stock_entry_no := some se.name } ∧
      se.name = "MAT-STE-00042" := by
  have hsw : ∀ r ∈ sheetOk.raw_material_consumption,
      strBlank r.item_code = false → strBlank r.source_warehouse = false := by
    intro r hr
    simp only [sheetOk] at hr
    rcases List.mem_singleton.mp hr with rfl
    intro _
    rfl
  have htw : ∀ r ∈ sheetOk.production_details, strBlank r.item_code = false →
      strBlank r.target_warehouse = false ∧
        strBlank (resolveUom submitEnvClean r) = false := by
    intro r hr
    simp only [sheetOk] at hr
    rcases List.mem_cons.mp hr with rfl | hr'
    · exact fun _ => ⟨rfl, rfl⟩
    · rcases List.mem_singleton.mp hr' with rfl
      exact fun _ => ⟨rfl, rfl⟩
  obtain ⟨se, hrun, hname, -⟩ :=
    (on_submit_success submitEnvClean sheetOk).2 rfl rfl rfl (by decide) (by decide) hsw htw rfl
  exact ⟨se, hrun, hname⟩

/-- C8: `on_submit` never sets `stock_entry_no` when it raises, and it sets
`stock_entry_no` only to the name of a Stock Entry that was successfully
inserted and submitted. -/
theorem on_submit_error_blocks (env : SubmitEnv) (sheet : ProductionLogSheetDoc) :
    ((sheet.on_submit env).error.isSome →
      (sheet.on_submit env).stock_entry_no = none ∧ (sheet.on_submit env).created = none) ∧
    (∀ n, (sheet.on_submit env).stock_entry_no = some n →
      (sheet.on_submit env).error = none ∧
        ∃ se, (sheet.on_submit env).created = some se ∧ se.name = n) := by
  have hshape : (∃ m, sheet.on_submit env =
        { error := some m, created := none, stock_entry_no := none }) ∨
      sheet.on_submit env = { error := none, created := none, stock_entry_no := none } ∨
      (∃ se, sheet.on_submit env =
        { error := none, created := some se, stock_entry_no := some se.name }) := by
    unfold ProductionLogSheetDoc.on_submit
    dsimp only
    repeat' split
    all_goals
      first
        | exact Or.inr (Or.inl rfl)
        | exact Or.inl ⟨_, rfl⟩
        | exact Or.inr (Or.inr ⟨_, rfl⟩)
  rcases hshape with ⟨m, h⟩ | h | ⟨se, h⟩ <;> rw [h]
  · refine ⟨fun _ => ⟨rfl, rfl⟩, ?_⟩
    intro n hn
    simp at hn
  · refine ⟨fun hfalse => by simp at hfalse, ?_⟩
    intro n hn
    simp at hn
  · refine ⟨fun hfalse => by simp at hfalse, ?_⟩
    intro n hn
    have : se.name = n := by simpa using hn
    exact ⟨rfl, se, rfl, this⟩

/-- C8 witness: a failing sheet leaves `stock_entry_no` unset. -/
theorem on_submit_error_blocks_witness :
    (sheetNoDate.on_submit submitEnvClean).error.isSome = true ∧
      (sheetNoDate.on_submit submitEnvClean).stock_entry_no = none :=
  ⟨rfl, ((on_submit_error_blocks submitEnvClean sheetNoDate).1 rfl).1⟩

/-- The slot-walking loop returns the first slot's value and 0 when the
sequence yields nothing. -/
theorem searchSlots_eq_findSome (env : PLBEnv) (item : String) (exclude : Option String)
    (seqc : List (Int × String)) :
    searchSlots env item exclude seqc =
      (seqc.findSome? (hitValue env item exclude)).getD 0 := by
  induction seqc with
  | nil => simp [searchSlots]
  | cons slot rest ih =>
    rw [List.findSome?_cons]
    unfold searchSlots hitValue
    cases hdoc : latestDoc env (slotFilter slot.1 slot.2 exclude) with
    | none => simpa using ih
    | some doc =>
      dsimp only
      cases hrow : childLookup doc item with
      | none => simpa using ih
      | some row =>
        dsimp only
        cases hcs : row.closing_stock with
        | none => simpa using ih
        | some v => simp

/-- Mapping `Nat.succ` under `flatMap` shifts the function's argument. -/
theorem flatMap_map_succ {α : Type} (l : List Nat) (f : Nat → List α) :
    (l.map Nat.succ).flatMap f = l.flatMap fun i => f (i + 1) := by
  induction l with
  | nil => simp
  | cons a as ih => simp [ih]

/-- The backward walk enumerates `start, start-1, ...`, a Night slot before
a Day slot each. -/
theorem buildBackSeq_eq (n : Nat) : ∀ c : Int,
    buildBackSeq c n =
      (List.range n).flatMap fun i => [(c - (i : Int), "Night"), (c - (i : Int), "Day")] := by
  induction n with
  | zero => intro c; simp [buildBackSeq]
  | succ m ih =>
    intro c
    rw [buildBackSeq, ih (c - 1), List.range_succ_eq_map, List.flatMap_cons, flatMap_map_succ]
    have harith : ∀ i : Nat, c - 1 - (i : Int) = c - ((i : Int) + 1) := fun i => by ring
    simp only [harith]
    simp

/-- C3: for every item code, day index and shift among Day/Night/Both,
`get_previous_closing_stock` returns the value of the first slot of the
claimed priority sequence that has a submitted Production Log Book with a
closing stock for the item — same-date Day first for Night shift, then
Night before Day for each of the 30 previous dates (skipping the current
date entirely for Day/Both) — and 0.0 when no slot yields one. -/
theorem get_previous_closing_stock_spec (env : PLBEnv) (item : String) (d : Int)
    (shift : String) (exclude : Option String)
    (hshift : shift = "Day" ∨ shift = "Night" ∨ shift = "Both")
    (hitem : item ≠ "") :
    get_previous_closing_stock env item d shift exclude =
      claimResult env item exclude (claimSequence d shift) := by
  have hseq : buildBackSeq (d - 1) 30 =
      (List.range 30).flatMap
        fun i => [(d - ((i : Int) + 1), "Night"), (d - ((i : Int) + 1), "Day")] := by
    rw [buildBackSeq_eq]
    have harith : ∀ i : Nat, d - 1 - (i : Int) = d - ((i : Int) + 1) := fun i => by ring
    simp only [harith]
  rcases hshift with rfl | rfl | rfl
  · rw [get_previous_closing_stock, claimResult, claimSequence]
    simp only [hitem, false_or, if_neg (by decide : ¬("Day" = ""))]
    rw [searchSlots_eq_findSome]
    have h0 : pyLower (pyStrip "Day") = "day" := rfl
    rw [h0]
    rw [if_neg (by decide : ¬("day" = "both")), if_neg (by decide : ¬("day" = "night")),
      if_neg (by decide : ¬("Day" = "Night")), hseq]
  · rw [get_previous_closing_stock, claimResult, claimSequence]
    simp only [hitem, false_or, if_neg (by decide : ¬("Night" = ""))]
    rw [searchSlots_eq_findSome]
    have h0 : pyLower (pyStrip "Night") = "night" := rfl
    rw [h0]
    rw [if_neg (by decide : ¬("night" = "both")), if_pos (rfl : "night" = "night"), hseq]
    simp
  · rw [get_previous_closing_stock, claimResult, claimSequence]
    simp only [hitem, false_or, if_neg (by decide : ¬("Both" = ""))]
    rw [searchSlots_eq_findSome]
    have h0 : pyLower (pyStrip "Both") = "both" := rfl
    rw [h0]
    rw [if_pos (rfl : "both" = "both"), if_neg (by decide : ¬("day" = "night")),
      if_neg (by decide : ¬("Both" = "Night")), hseq]

/-- C5: `_fetch_punches_for_date d` sends a POST whose body has exactly the
four keys `FromDate = ToDate = d`, `DeviceID = UserID = ""` with the
`X-Api-Key` header, and returns the response's `Data` list when the status
is 200 and `Success` is truthy, and an empty punch list in every other case
(non-200, `Success` falsy, non-object JSON, non-JSON body, connection error
or timeout). -/
theorem fetch_punches_spec (net : TWRequest → TWHttpOutcome) (d : String) :
    (fetchPunchesForDate net d).1.url = API_URL ∧
    (fetchPunchesForDate net d).1.apiKey = API_KEY ∧
    (fetchPunchesForDate net d).1.FromDate = d ∧
    (fetchPunchesForDate net d).1.ToDate = d ∧
    (fetchPunchesForDate net d).1.DeviceID = "" ∧
    (fetchPunchesForDate net d).1.UserID = "" ∧
    (fetchPunchesForDate net d).2.1 = claimPunches (net (buildPunchRequest d)) := by
  refine ⟨rfl, rfl, rfl, rfl, rfl, rfl, ?_⟩
  show (fetchResult (net (buildPunchRequest d))).1 = _
  cases hnet : net (buildPunchRequest d) with
  | connectionError => rfl
  | timeout => rfl
  | otherError => rfl
  | response status json =>
    cases json with
    | none =>
      by_cases hs : status = 200 <;> simp [fetchResult, claimPunches, hs]
    | some data =>
      cases data with
      | nonDict =>
        by_cases hs : status = 200 <;> simp [fetchResult, claimPunches, hs]
      | dict success message dataList =>
        by_cases hs : status = 200
        · cases success <;> simp [fetchResult, claimPunches, hs]
        · simp [fetchResult, claimPunches, hs]

/-- `submitIfDraft` only touches `docstatus`, never the matching fields. -/
theorem attMatch_submitIfDraft (e d : String) (a : AttendanceDoc) :
    attMatch e d (submitIfDraft a) = attMatch e d a := by
  unfold submitIfDraft
  split <;> rfl

/-- Replacing a row by one that matches the same way keeps the count. -/
theorem countAtt_replaceFirst (e d : String) (p : AttendanceDoc → Bool)
    (f : AttendanceDoc → AttendanceDoc)
    (hf : ∀ a, p a = true → attMatch e d (f a) = attMatch e d a) :
    ∀ s, countAtt (replaceFirst p f s) e d = countAtt s e d := by
  intro s
  induction s with
  | nil => rfl
  | cons x xs ih =>
    unfold replaceFirst
    by_cases hp : p x = true
    · simp only [if_pos hp]
      unfold countAtt
      rw [List.filter_cons, List.filter_cons, hf x hp]
      split <;> simp
    · simp only [if_neg hp]
      unfold countAtt at ih ⊢
      rw [List.filter_cons, List.filter_cons]
      split <;> simp [ih]

/-- Replacing a row by one that matches the same way keeps existence. -/
theorem hasAtt_replaceFirst (e d : String) (p : AttendanceDoc → Bool)
    (f : AttendanceDoc → AttendanceDoc)
    (hf : ∀ a, p a = true → attMatch e d (f a) = attMatch e d a) :
    ∀ s, hasAtt (replaceFirst p f s) e d = hasAtt s e d := by
  intro s
  induction s with
  | nil => rfl
  | cons x xs ih =>
    unfold replaceFirst
    by_cases hp : p x = true
    · simp only [if_pos hp]
      unfold hasAtt
      rw [List.any_cons, List.any_cons, hf x hp]
    · simp only [if_neg hp]
      unfold hasAtt at ih ⊢
      rw [List.any_cons, List.any_cons, ih]

/-- One punch-user iteration neither adds nor removes Attendance documents
for an employee/date that already has one, and keeps it existing. -/
theorem processUser_pres (env : SyncEnv) (uid : String) (ts : List Int)
    (e d : String) (s : List AttendanceDoc) (h : hasAtt s e d = true) :
    countAtt (processUser env s uid ts) e d = countAtt s e d ∧
      hasAtt (processUser env s uid ts) e d = true := by
  unfold processUser
  cases hm : useridToEmp env.employees uid with
  | none => exact ⟨rfl, h⟩
  | some empName =>
    dsimp only
    cases hsort : sortInts ts with
    | nil => exact ⟨rfl, h⟩
    | cons inT restSorted =>
      dsimp only
      split
      · exact ⟨rfl, h⟩
      · split
        · -- update in place
          have hf : ∀ a, attMatch empName env.attDate a = true →
              attMatch e d (submitIfDraft
                { a with
                  status := if (if ts.length > 1 then
                      (inT :: restSorted).getLast? else none).isSome then "Present"
                    else "Absent",
                  attendance_date := env.attDate,
                  custom_attendance_in_time := some (env.dtFmt inT),
                  custom_attendance_out_time := (if ts.length > 1 then
                    (inT :: restSorted).getLast? else none).map env.dtFmt }) =
                attMatch e d a := by
            intro a ha
            rw [attMatch_submitIfDraft]
            unfold attMatch at ha ⊢
            rw [Bool.and_eq_true] at ha
            have hdate : a.attendance_date = env.attDate := by
              have := ha.2
              simpa using this
            simp [← hdate]
          exact ⟨countAtt_replaceFirst e d _ _ hf s, by rw [hasAtt_replaceFirst e d _ _ hf s]; exact h⟩
        · -- create a new document: it cannot match (e, d)
          rename_i hnone
          have hnd : attMatch e d (submitIfDraft
              { employee := empName, attendance_date := env.attDate,
                status := if (if ts.length > 1 then
                    (inT :: restSorted).getLast? else none).isSome then "Present"
                  else "Absent",
                custom_attendance_in_time := some (env.dtFmt inT),
                custom_attendance_out_time := (if ts.length > 1 then
                  (inT :: restSorted).getLast? else none).map env.dtFmt,
                docstatus := 0 }) = false := by
            rw [attMatch_submitIfDraft]
            unfold attMatch
            by_contra hcontra
            rw [Bool.not_eq_false, Bool.and_eq_true] at hcontra
            have he : empName = e := by simpa using hcontra.1
            have hd : env.attDate = d := by simpa using hcontra.2
            rw [he, hd] at hnone
            exact hnone h
          constructor
          · unfold countAtt
            rw [List.filter_append]
            simp [hnd]
          · unfold hasAtt at h ⊢
            rw [List.any_append, h]
            rfl

/-- One no-punch iteration neither adds nor removes Attendance documents for
an employee/date that already has one, and keeps it existing. -/
theorem processNoPunch_pres (env : SyncEnv) (uids : List String) (em : Employee)
    (e d : String) (s : List AttendanceDoc) (h : hasAtt s e d = true) :
    countAtt (processNoPunch env uids s em) e d = countAtt s e d ∧
      hasAtt (processNoPunch env uids s em) e d = true := by
  unfold processNoPunch
  split
  · exact ⟨rfl, h⟩
  · split
    · exact ⟨rfl, h⟩
    · split
      · exact ⟨rfl, h⟩
      · rename_i hnone
        have hnd : attMatch e d (submitIfDraft
            { employee := em.name, attendance_date := env.attDate, status := "Absent",
              custom_attendance_in_time := none, custom_attendance_out_time := none,
              docstatus := 0 }) = false := by
          rw [attMatch_submitIfDraft]
          unfold attMatch
          by_contra hcontra
          rw [Bool.not_eq_false, Bool.and_eq_true] at hcontra
          have he : em.name = e := by simpa using hcontra.1
          have hd : env.attDate = d := by simpa using hcontra.2
          rw [he, hd] at hnone
          exact hnone h
        constructor
        · unfold countAtt
          rw [List.filter_append]
          simp [hnd]
        · unfold hasAtt at h ⊢
          rw [List.any_append, h]
          rfl

/-- A fold preserves any invariant its steps preserve. -/
theorem foldl_inv {σ κ : Type} (g : σ → κ → σ) (P : σ → Prop)
    (hstep : ∀ s x, P s → P (g s x)) :
    ∀ (l : List κ) (s : σ), P s → P (l.foldl g s) := by
  intro l
  induction l with
  | nil => exact fun s h => h
  | cons x xs ih =>
    intro s h
    exact ih _ (hstep s x h)

/-- C6: `sync_yesterday_attendance` never creates a second Attendance for an
employee and date that already have one: whether the employee has punches
(the existing document is loaded and updated in place) or none (the
employee is skipped), the number of Attendance documents for that employee
and the target date is unchanged. -/
theorem sync_no_duplicate (env : SyncEnv) (e : String)
    (h : hasAtt env.attendance0 e env.attDate = true) :
    countAtt (sync_yesterday_attendance env) e env.attDate =
      countAtt env.attendance0 e env.attDate := by
  unfold sync_yesterday_attendance
  dsimp only
  split
  · rfl
  · split
    · rfl
    · split
      · rfl
      · have main : ∀ (keys : List String) (groups : List (String × List Int))
            (emps : List Employee),
            countAtt (emps.foldl (processNoPunch env keys)
                (groups.foldl (fun s g => processUser env s g.1 g.2) env.attendance0))
              e env.attDate = countAtt env.attendance0 e env.attDate := by
          intro keys groups emps
          have hinv := foldl_inv
            (fun (s : List AttendanceDoc) (g : String × List Int) => processUser env s g.1 g.2)
            (fun s => countAtt s e env.attDate = countAtt env.attendance0 e env.attDate ∧
              hasAtt s e env.attDate = true)
            (fun s g hp =>
              ⟨by rw [(processUser_pres env g.1 g.2 e env.attDate s hp.2).1, hp.1],
               (processUser_pres env g.1 g.2 e env.attDate s hp.2).2⟩)
            groups env.attendance0 ⟨rfl, h⟩
          have hinv2 := foldl_inv (processNoPunch env keys)
            (fun s => countAtt s e env.attDate = countAtt env.attendance0 e env.attDate ∧
              hasAtt s e env.attDate = true)
            (fun s em hp =>
              ⟨by rw [(processNoPunch_pres env keys em e env.attDate s hp.2).1, hp.1],
               (processNoPunch_pres env keys em e env.attDate s hp.2).2⟩)
            emps _ hinv
          exact hinv2.1
        exact main _ _ _

/-- C6 witness: the no-duplicate theorem evaluated on a concrete run with an
existing Attendance for `EMP-1`. -/
theorem sync_no_duplicate_witness :
    hasAtt syncEnvEx.attendance0 "EMP-1" syncEnvEx.attDate = true ∧
      countAtt (sync_yesterday_attendance syncEnvEx) "EMP-1" syncEnvEx.attDate =
        countAtt syncEnvEx.attendance0 "EMP-1" syncEnvEx.attDate :=
  ⟨rfl, sync_no_duplicate syncEnvEx "EMP-1" rfl⟩

/-- C3 witness: the search theorem evaluated for a Night-shift lookup over a
concrete log book. -/
theorem get_previous_closing_stock_spec_witness :
    ("Night" = "Day" ∨ "Night" = "Night" ∨ "Night" = "Both") ∧ "ITM-1" ≠ "" ∧
      get_previous_closing_stock plbEnvEx "ITM-1" 100 "Night" none =
        claimResult plbEnvEx "ITM-1" none (claimSequence 100 "Night") :=
  ⟨Or.inr (Or.inl rfl), by decide,
    get_previous_closing_stock_spec plbEnvEx "ITM-1" 100 "Night" none
      (Or.inr (Or.inl rfl)) (by decide)⟩

/-- A member produced by `getLast?` is in the list. -/
theorem mem_of_getLast_opt {α : Type} : ∀ {l : List α} {a : α}, l.getLast? = some a → a ∈ l := by
  intro l
  induction l with
  | nil => intro a h; simp at h
  | cons x xs ih =>
    intro a h
    cases xs with
    | nil =>
      simp [List.getLast?] at h
      simp [h]
    | cons y ys =>
      rw [List.getLast?_cons_cons] at h
      exact List.mem_cons_of_mem x (ih h)

/-- Every valid punch has a non-empty user id and yesterday's date. -/
theorem validPunchTimes_props (env : SyncEnv) (punches : List TWPunch) (u : String) (t : Int)
    (h : (u, t) ∈ validPunchTimes env punches) :
    u ≠ "" ∧ env.dtDate t = env.attDate := by
  rw [validPunchTimes, List.mem_filterMap] at h
  obtain ⟨row, hrow, heq⟩ := h
  by_cases hu : strBlank row.UserID = true
  · simp [hu] at heq
  · rw [if_neg hu] at heq
    by_cases hp : strBlank row.PunchTime = true
    · simp [hp] at heq
    · rw [if_neg hp] at heq
      cases hparse : env.parseDT (row.PunchTime.getD "") with
      | none => rw [hparse] at heq; simp at heq
      | some t2 =>
        rw [hparse] at heq
        dsimp only at heq
        by_cases hd : env.dtDate t2 = env.attDate
        · rw [if_pos hd] at heq
          have h1 : row.UserID.getD "" = u := by
            have := congrArg (fun p => (Option.map Prod.fst p).getD "x") heq
            simpa using this
          have h2 : t2 = t := by
            have := congrArg (fun p => (Option.map Prod.snd p).getD 0) heq
            simpa using this
          constructor
          · cases hcode : row.UserID with
            | none => rw [hcode] at hu; simp [strBlank] at hu
            | some su =>
              rw [hcode] at hu h1
              simp only [Option.getD_some] at h1
              simp only [strBlank] at hu
              rw [← h1]
              simpa using hu
          · rw [← h2]; exact hd
        · rw [if_neg hd] at heq; simp at heq

/-- Every key of the punch grouping has at least one punch in the list. -/
theorem keysInOrder_sub (l : List (String × Int)) (u : String)
    (h : u ∈ keysInOrder l) : ∃ t, (u, t) ∈ l := by
  have main : ∀ (l : List (String × Int)) (acc : List String),
      u ∈ l.foldl (fun ks p => if ks.contains p.1 then ks else ks ++ [p.1]) acc →
      u ∈ acc ∨ ∃ t, (u, t) ∈ l := by
    intro l
    induction l with
    | nil => intro acc h; exact Or.inl h
    | cons p ps ih =>
      intro acc h
      obtain ⟨pu, pt⟩ := p
      rcases ih _ h with hacc | ⟨t, ht⟩
      · dsimp only at hacc
        by_cases hc : acc.contains pu = true
        · rw [if_pos hc] at hacc
          exact Or.inl hacc
        · rw [if_neg hc] at hacc
          rcases List.mem_append.mp hacc with h1 | h1
          · exact Or.inl h1
          · rcases List.mem_singleton.mp h1 with rfl
            exact Or.inr ⟨pt, List.mem_cons_self _ _⟩
      · exact Or.inr ⟨t, List.mem_cons_of_mem _ ht⟩
  rcases main l [] h with habs | hex
  · simp at habs
  · exact hex

/-- The punch grouping produces each user id once. -/
theorem keysInOrder_nodup (l : List (String × Int)) : (keysInOrder l).Nodup := by
  have main : ∀ (l : List (String × Int)) (acc : List String), acc.Nodup →
      (l.foldl (fun ks p => if ks.contains p.1 then ks else ks ++ [p.1]) acc).Nodup := by
    intro l
    induction l with
    | nil => intro acc h; exact h
    | cons p ps ih =>
      intro acc h
      apply ih
      dsimp only
      by_cases hc : acc.contains p.1 = true
      · rw [if_pos hc]; exact h
      · rw [if_neg hc]
        rw [List.nodup_append]
        refine ⟨h, List.nodup_singleton _, ?_⟩
        intro a ha hb
        rcases List.mem_singleton.mp hb with rfl
        exact hc (List.elem_eq_true_of_mem ha)
  exact main l [] List.nodup_nil

/-- Every collected time of a user comes from one of their punches. -/
theorem timesFor_mem (l : List (String × Int)) (u : String) (t : Int)
    (h : t ∈ timesFor l u) : (u, t) ∈ l := by
  rw [timesFor, List.mem_map] at h
  obtain ⟨p, hp, hpt⟩ := h
  rcases List.mem_filter.mp hp with ⟨hpl, hpe⟩
  have h1 : p.1 = u := by simpa using hpe
  have h2 : p = (u, t) := by
    obtain ⟨p1, p2⟩ := p
    dsimp only at h1 hpt
    rw [h1, hpt]
  rw [← h2]
  exact hpl

/-- Every punch of a user is collected. -/
theorem timesFor_mem_rev (l : List (String × Int)) (u : String) (t : Int)
    (h : (u, t) ∈ l) : t ∈ timesFor l u := by
  rw [timesFor, List.mem_map]
  exact ⟨(u, t), List.mem_filter.mpr ⟨h, by simp⟩, rfl⟩

/-- `times.sort()` is a permutation of the input. -/
theorem sortInts_perm (l : List Int) : List.Perm (sortInts l) l :=
  List.perm_insertionSort _ l

/-- `times.sort()` sorts ascending. -/
theorem sortInts_sorted (l : List Int) : List.Sorted (· ≤ ·) (sortInts l) :=
  List.sorted_insertionSort _ l

/-- In a sorted list the head is a lower bound. -/
theorem head_le_of_sorted (a : Int) (l : List Int)
    (hs : List.Sorted (· ≤ ·) (a :: l)) : ∀ x ∈ a :: l, a ≤ x := by
  intro x hx
  rcases List.mem_cons.mp hx with rfl | hx'
  · exact le_refl x
  · exact List.rel_of_sorted_cons hs x hx'

/-- In a sorted list the last element is an upper bound. -/
theorem le_getLast_of_sorted : ∀ (l : List Int), List.Sorted (· ≤ ·) l →
    ∀ (h : l ≠ []) (x : Int), x ∈ l → x ≤ l.getLast h := by
  intro l
  induction l with
  | nil => intro _ h; exact absurd rfl h
  | cons a l2 ih =>
    intro hs h x hx
    cases l2 with
    | nil =>
      rcases List.mem_singleton.mp hx with rfl
      simp [List.getLast]
    | cons b l3 =>
      rw [List.getLast_cons (List.cons_ne_nil b l3)]
      rcases List.mem_cons.mp hx with rfl | hx'
      · exact List.rel_of_sorted_cons hs _
          (List.getLast_mem (List.cons_ne_nil b l3))
      · exact ih hs.of_cons (List.cons_ne_nil b l3) x hx'

/-- When some row matches, `replaceFirst` keeps the rewritten first match in
the list. -/
theorem replaceFirst_establish {α : Type} (p : α → Bool) (f : α → α) :
    ∀ (s : List α), s.any p = true → ∃ x, p x = true ∧ f x ∈ replaceFirst p f s := by
  intro s
  induction s with
  | nil => intro h; simp at h
  | cons y ys ih =>
    intro h
    by_cases hy : p y = true
    · exact ⟨y, hy, by simp [replaceFirst, hy]⟩
    · have h2 : ys.any p = true := by
        rcases List.any_eq_true.mp h with ⟨x, hx, hpx⟩
        rcases List.mem_cons.mp hx with rfl | hx'
        · exact absurd hpx hy
        · exact List.any_eq_true.mpr ⟨x, hx', hpx⟩
      obtain ⟨x, hpx, hmem⟩ := ih h2
      exact ⟨x, hpx, by simp [replaceFirst, hy, hmem]⟩

/-- Rows that do not match survive `replaceFirst` unchanged. -/
theorem mem_replaceFirst_of_not {α : Type} (p : α → Bool) (f : α → α) (a : α) :
    ∀ (s : List α), a ∈ s → p a = false → a ∈ replaceFirst p f s := by
  intro s
  induction s with
  | nil => intro h; simp at h
  | cons y ys ih =>
    intro h hpa
    rcases List.mem_cons.mp h with rfl | h'
    · simp [replaceFirst, hpa]
    · unfold replaceFirst
      split
      · exact List.mem_cons_of_mem _ h'
      · exact List.mem_cons_of_mem _ (ih h' hpa)

/-- `submitIfDraft` keeps the employee. -/
theorem submitIfDraft_employee (a : AttendanceDoc) :
    (submitIfDraft a).employee = a.employee := by
  unfold submitIfDraft; split <;> rfl

/-- `submitIfDraft` keeps the date. -/
theorem submitIfDraft_date (a : AttendanceDoc) :
    (submitIfDraft a).attendance_date = a.attendance_date := by
  unfold submitIfDraft; split <;> rfl

/-- `submitIfDraft` keeps the status. -/
theorem submitIfDraft_status (a : AttendanceDoc) :
    (submitIfDraft a).status = a.status := by
  unfold submitIfDraft; split <;> rfl

/-- `submitIfDraft` keeps the in time. -/
theorem submitIfDraft_in (a : AttendanceDoc) :
    (submitIfDraft a).custom_attendance_in_time = a.custom_attendance_in_time := by
  unfold submitIfDraft; split <;> rfl

/-- `submitIfDraft` keeps the out time. -/
theorem submitIfDraft_out (a : AttendanceDoc) :
    (submitIfDraft a).custom_attendance_out_time = a.custom_attendance_out_time := by
  unfold submitIfDraft; split <;> rfl

/-- A successful `userid_to_emp` lookup names an employee row with that id. -/
theorem useridToEmp_mem (emps : List Employee) (u n : String)
    (h : useridToEmp emps u = some n) :
    ∃ x ∈ emps, x.custom_employee_id = some u ∧ x.name = n ∧
      strBlank x.custom_employee_id = false := by
  rw [useridToEmp] at h
  cases hlast : (((emps.filter fun e => !strBlank e.custom_employee_id).filter
      fun e => e.custom_employee_id == some u)).getLast? with
  | none => rw [hlast] at h; simp at h
  | some x =>
    rw [hlast] at h
    have hn : x.name = n := by simpa using h
    have hx := mem_of_getLast_opt hlast
    rcases List.mem_filter.mp hx with ⟨hx1, hx2⟩
    rcases List.mem_filter.mp hx1 with ⟨hx0, hx3⟩
    refine ⟨x, hx0, ?_, hn, ?_⟩
    · simpa using hx2
    · simpa using hx3

/-- With unique employee names, `userid_to_emp` maps distinct user ids to
distinct employees. -/
theorem useridToEmp_inj (emps : List Employee) (u u2 n : String)
    (hnd : (emps.map (·.name)).Nodup)
    (h1 : useridToEmp emps u = some n) (h2 : useridToEmp emps u2 = some n) :
    u = u2 := by
  obtain ⟨x, hx, hxid, hxn, -⟩ := useridToEmp_mem emps u n h1
  obtain ⟨y, hy, hyid, hyn, -⟩ := useridToEmp_mem emps u2 n h2
  have hxy : x = y :=
    List.inj_on_of_nodup_map hnd hx hy (by rw [hxn, hyn])
  rw [hxy] at hxid
  rw [hxid] at hyid
  exact Option.some.inj hyid

/-- `attHas` survives appending rows. -/
theorem attHas_append (s l : List AttendanceDoc) (e d st : String)
    (i o : Option String) (h : attHas s e d st i o) : attHas (s ++ l) e d st i o := by
  obtain ⟨a, ha, hp⟩ := h
  exact ⟨a, List.mem_append_left l ha, hp⟩

/-- `attHas` survives a `replaceFirst` whose filter targets a different
employee. -/
theorem attHas_replaceFirst_ne (s : List AttendanceDoc) (e d st : String)
    (i o : Option String) (p : AttendanceDoc → Bool) (f : AttendanceDoc → AttendanceDoc)
    (hp : ∀ a, a.employee = e → p a = false)
    (h : attHas s e d st i o) : attHas (replaceFirst p f s) e d st i o := by
  obtain ⟨a, ha, he, hrest⟩ := h
  exact ⟨a, mem_replaceFirst_of_not p f a s ha (hp a he), he, hrest⟩

/-- A punch-user iteration for a different employee leaves an established
Attendance record untouched. -/
theorem processUser_preserve (env : SyncEnv) (s : List AttendanceDoc) (uid2 : String)
    (ts2 : List Int) (e d st : String) (i o : Option String)
    (hne : ∀ n, useridToEmp env.employees uid2 = some n → n ≠ e)
    (h : attHas s e d st i o) : attHas (processUser env s uid2 ts2) e d st i o := by
  unfold processUser
  cases hm : useridToEmp env.employees uid2 with
  | none => exact h
  | some empName =>
    have hnee : empName ≠ e := hne empName hm
    dsimp only
    cases hsort : sortInts ts2 with
    | nil => exact h
    | cons inT restSorted =>
      dsimp only
      split
      · exact h
      · split
        · apply attHas_replaceFirst_ne _ _ _ _ _ _ _ _ _ h
          intro a hae
          unfold attMatch
          have : (a.employee == empName) = false := by
            rw [hae]
            exact beq_eq_false_iff_ne.mpr (Ne.symm hnee)
          rw [this]
          rfl
        · exact attHas_append _ _ _ _ _ _ _ h

/-- A no-punch iteration never removes or rewrites existing rows. -/
theorem processNoPunch_preserve (env : SyncEnv) (uids : List String) (em : Employee)
    (s : List AttendanceDoc) (e d st : String) (i o : Option String)
    (h : attHas s e d st i o) : attHas (processNoPunch env uids s em) e d st i o := by
  unfold processNoPunch
  split
  · exact h
  · split
    · exact h
    · split
      · exact h
      · exact attHas_append _ _ _ _ _ _ _ h

/-- A fold preserves an invariant its steps preserve on the traversed
elements. -/
theorem foldl_inv_mem {σ κ : Type} (g : σ → κ → σ) (P : σ → Prop) :
    ∀ (l : List κ), (∀ s x, x ∈ l → P s → P (g s x)) →
      ∀ (s : σ), P s → P (l.foldl g s) := by
  intro l
  induction l with
  | nil => exact fun _ s h => h
  | cons x xs ih =>
    intro hstep s h
    exact ih (fun s2 y hy => hstep s2 y (List.mem_cons_of_mem x hy)) _
      (hstep s x (List.mem_cons_self x xs) h)

/-- Processing the punches of a matched employee writes an Attendance whose
status and in/out times follow the one-punch / many-punch rule. -/
theorem processUser_establish (env : SyncEnv) (s : List AttendanceDoc) (uid : String)
    (ts : List Int) (emp : String)
    (hlk : useridToEmp env.employees uid = some emp)
    (hne : ts ≠ [])
    (hdates : ∀ t ∈ ts, env.dtDate t = env.attDate) :
    ∃ t0, t0 ∈ ts ∧ (∀ t ∈ ts, t0 ≤ t) ∧
      ((ts.length = 1 →
        attHas (processUser env s uid ts) emp env.attDate "Absent"
          (some (env.dtFmt t0)) none) ∧
       (2 ≤ ts.length →
        ∃ t1, t1 ∈ ts ∧ (∀ t ∈ ts, t ≤ t1) ∧
          attHas (processUser env s uid ts) emp env.attDate "Present"
            (some (env.dtFmt t0)) (some (env.dtFmt t1)))) := by
  cases hsort : sortInts ts with
  | nil =>
    exfalso
    have hperm := sortInts_perm ts
    rw [hsort] at hperm
    exact hne hperm.nil_eq.symm
  | cons t0 rest =>
    have hperm : List.Perm (t0 :: rest) ts := by rw [← hsort]; exact sortInts_perm ts
    have hsorted : List.Sorted (· ≤ ·) (t0 :: rest) := by
      rw [← hsort]; exact sortInts_sorted ts
    have ht0mem : t0 ∈ ts := hperm.mem_iff.mp (List.mem_cons_self t0 rest)
    have ht0min : ∀ t ∈ ts, t0 ≤ t := fun t ht =>
      head_le_of_sorted t0 rest hsorted t (hperm.mem_iff.mpr ht)
    have hlen : ts.length = rest.length + 1 := by
      rw [← hperm.length_eq]
      rfl
    have hstep : processUser env s uid ts =
        (if s.any (attMatch emp env.attDate) then
           replaceFirst (attMatch emp env.attDate)
             (fun a => submitIfDraft
               { a with
                 status := if (if ts.length > 1 then (t0 :: rest).getLast? else none).isSome
                   then "Present" else "Absent",
                 attendance_date := env.attDate,
                 custom_attendance_in_time := some (env.dtFmt t0),
                 custom_attendance_out_time :=
                   (if ts.length > 1 then (t0 :: rest).getLast? else none).map env.dtFmt }) s
         else
           s ++ [submitIfDraft
             { employee := emp, attendance_date := env.attDate,
               status := if (if ts.length > 1 then (t0 :: rest).getLast? else none).isSome
                 then "Present" else "Absent",
               custom_attendance_in_time := some (env.dtFmt t0),
               custom_attendance_out_time :=
                 (if ts.length > 1 then (t0 :: rest).getLast? else none).map env.dtFmt,
               docstatus := 0 }]) := by
      unfold processUser
      rw [hlk]
      dsimp only
      rw [hsort]
      dsimp only
      rw [if_neg (show ¬(env.dtDate t0 ≠ env.attDate) from
        fun hc => hc (hdates t0 ht0mem))]
    refine ⟨t0, ht0mem, ht0min, ?_, ?_⟩
    · intro hl1
      have hout : (if ts.length > 1 then (t0 :: rest).getLast? else none) = none := by
        rw [hl1]
        exact if_neg (by omega)
      rw [hstep]
      simp only [hout, Option.isSome_none, Bool.false_eq_true, if_false, Option.map_none']
      by_cases hany : s.any (attMatch emp env.attDate) = true
      · rw [if_pos hany]
        obtain ⟨x, hpx, hmem⟩ := replaceFirst_establish (attMatch emp env.attDate) _ s hany
        have hxe : x.employee = emp := by
          unfold attMatch at hpx
          rw [Bool.and_eq_true] at hpx
          exact eq_of_beq hpx.1
        refine ⟨_, hmem, ?_, ?_, ?_, ?_, ?_⟩
        · rw [submitIfDraft_employee]; exact hxe
        · rw [submitIfDraft_date]
        · rw [submitIfDraft_status]
        · rw [submitIfDraft_in]
        · rw [submitIfDraft_out]
      · rw [if_neg hany]
        refine ⟨_, List.mem_append_right s (List.mem_singleton.mpr rfl), ?_, ?_, ?_, ?_, ?_⟩
        · rw [submitIfDraft_employee]
        · rw [submitIfDraft_date]
        · rw [submitIfDraft_status]
        · rw [submitIfDraft_in]
        · rw [submitIfDraft_out]
    · intro hl2
      have hrestne : (t0 :: rest) ≠ [] := List.cons_ne_nil t0 rest
      have hgl : (t0 :: rest).getLast? = some ((t0 :: rest).getLast hrestne) :=
        List.getLast?_eq_getLast _ hrestne
      have hout : (if ts.length > 1 then (t0 :: rest).getLast? else none) =
          some ((t0 :: rest).getLast hrestne) := by
        rw [if_pos (by omega : ts.length > 1), hgl]
      have ht1mem : (t0 :: rest).getLast hrestne ∈ ts :=
        hperm.mem_iff.mp (List.getLast_mem hrestne)
      have ht1max : ∀ t ∈ ts, t ≤ (t0 :: rest).getLast hrestne := fun t ht =>
        le_getLast_of_sorted (t0 :: rest) hsorted hrestne t (hperm.mem_iff.mpr ht)
      refine ⟨(t0 :: rest).getLast hrestne, ht1mem, ht1max, ?_⟩
      rw [hstep]
      simp only [hout, Option.isSome_some, if_true, Option.map_some']
      by_cases hany : s.any (attMatch emp env.attDate) = true
      · rw [if_pos hany]
        obtain ⟨x, hpx, hmem⟩ := replaceFirst_establish (attMatch emp env.attDate) _ s hany
        have hxe : x.employee = emp := by
          unfold attMatch at hpx
          rw [Bool.and_eq_true] at hpx
          exact eq_of_beq hpx.1
        refine ⟨_, hmem, ?_, ?_, ?_, ?_, ?_⟩
        · rw [submitIfDraft_employee]; exact hxe
        · rw [submitIfDraft_date]
        · rw [submitIfDraft_status]
        · rw [submitIfDraft_in]
        · rw [submitIfDraft_out]
      · rw [if_neg hany]
        refine ⟨_, List.mem_append_right s (List.mem_singleton.mpr rfl), ?_, ?_, ?_, ?_, ?_⟩
        · rw [submitIfDraft_employee]
        · rw [submitIfDraft_date]
        · rw [submitIfDraft_status]
        · rw [submitIfDraft_in]
        · rw [submitIfDraft_out]

/-- C9: in `sync_yesterday_attendance`, a matched employee with exactly one
valid punch on the target date gets an `Absent` Attendance whose
`custom_attendance_in_time` is that punch and whose
`custom_attendance_out_time` is empty; a matched employee with two or more
valid punches gets `Present` with in time the earliest punch and out time
the latest. -/
theorem sync_status_rule (env : SyncEnv) (uid emp : String)
    (hnd : (env.employees.map (·.name)).Nodup)
    (hlk : useridToEmp env.employees uid = some emp)
    (hmem : uid ∈ keysInOrder (syncValidPunches env)) :
    (∀ t, userTimes env uid = [t] →
      attHas (sync_yesterday_attendance env) emp env.attDate "Absent"
        (some (env.dtFmt t)) none) ∧
    (2 ≤ (userTimes env uid).length →
      ∃ t0 t1, t0 ∈ userTimes env uid ∧ t1 ∈ userTimes env uid ∧
        (∀ t ∈ userTimes env uid, t0 ≤ t) ∧ (∀ t ∈ userTimes env uid, t ≤ t1) ∧
        attHas (sync_yesterday_attendance env) emp env.attDate "Present"
          (some (env.dtFmt t0)) (some (env.dtFmt t1))) := by
  simp only [userTimes, syncValidPunches] at hmem ⊢
  have hvpne : validPunchTimes env (fetchPunchesForDate env.net env.attDate).2.1 ≠ [] := by
    intro hnil
    rw [hnil] at hmem
    simp [keysInOrder] at hmem
  have hpne : (fetchPunchesForDate env.net env.attDate).2.1 ≠ [] := by
    intro hnil
    apply hvpne
    rw [hnil]
    rfl
  have hpempty : ((fetchPunchesForDate env.net env.attDate).2.1).isEmpty = false := by
    cases hp : (fetchPunchesForDate env.net env.attDate).2.1 with
    | nil => exact absurd hp hpne
    | cons a l => rfl
  have hvpempty :
      (validPunchTimes env (fetchPunchesForDate env.net env.attDate).2.1).isEmpty = false := by
    cases hp : validPunchTimes env (fetchPunchesForDate env.net env.attDate).2.1 with
    | nil => exact absurd hp hvpne
    | cons a l => rfl
  have hanyemp : (env.employees.any fun e => !strBlank e.custom_employee_id) = true := by
    obtain ⟨x, hx, -, -, hxblank⟩ := useridToEmp_mem env.employees uid emp hlk
    exact List.any_eq_true.mpr ⟨x, hx, by rw [hxblank]; rfl⟩
  have hsync : sync_yesterday_attendance env =
      env.employees.foldl
        (processNoPunch env
          (keysInOrder (validPunchTimes env (fetchPunchesForDate env.net env.attDate).2.1)))
        (((keysInOrder (validPunchTimes env (fetchPunchesForDate env.net env.attDate).2.1)).map
            fun u => (u, timesFor
              (validPunchTimes env (fetchPunchesForDate env.net env.attDate).2.1) u)).foldl
          (fun s g => processUser env s g.1 g.2) env.attendance0) := by
    unfold sync_yesterday_attendance
    dsimp only
    rw [if_neg (by simp [hpempty]), if_neg (by simp [hanyemp]), if_neg (by simp [hvpempty])]
  rw [hsync]
  -- the per-user punch list and its facts
  have hne : timesFor (validPunchTimes env (fetchPunchesForDate env.net env.attDate).2.1) uid
      ≠ [] := by
    obtain ⟨t, ht⟩ := keysInOrder_sub _ uid hmem
    intro hnil
    have hmem2 := timesFor_mem_rev _ uid t ht
    rw [hnil] at hmem2
    simp at hmem2
  have hdates : ∀ t ∈ timesFor
      (validPunchTimes env (fetchPunchesForDate env.net env.attDate).2.1) uid,
      env.dtDate t = env.attDate := by
    intro t ht
    exact (validPunchTimes_props env _ uid t (timesFor_mem _ uid t ht)).2
  -- split the key list at uid
  obtain ⟨k1, k2, hk⟩ := List.append_of_mem hmem
  have hnodup := keysInOrder_nodup
    (validPunchTimes env (fetchPunchesForDate env.net env.attDate).2.1)
  rw [hk] at hnodup
  have huidnotin : uid ∉ k2 :=
    (List.nodup_cons.mp (List.nodup_append.mp hnodup).2.1).1
  rw [hk, List.map_append, List.map_cons, List.foldl_append, List.foldl_cons]
  -- preservation of an established record through the remaining iterations
  have hpres : ∀ (st : String) (i o : Option String) (s2 : List AttendanceDoc),
      attHas s2 emp env.attDate st i o →
      attHas (env.employees.foldl (processNoPunch env (k1 ++ uid :: k2))
        ((k2.map fun u => (u, timesFor
            (validPunchTimes env (fetchPunchesForDate env.net env.attDate).2.1) u)).foldl
          (fun s g => processUser env s g.1 g.2) s2)) emp env.attDate st i o := by
    intro st i o s2 h2
    apply foldl_inv_mem (processNoPunch env (k1 ++ uid :: k2))
      (fun s => attHas s emp env.attDate st i o) env.employees
      (fun s em _ hp => processNoPunch_preserve env _ em s emp env.attDate st i o hp)
    apply foldl_inv_mem
      (fun (s : List AttendanceDoc) (g : String × List Int) => processUser env s g.1 g.2)
      (fun s => attHas s emp env.attDate st i o) _ ?step s2 h2
    case step =>
      intro s x hx hp
      obtain ⟨u2, hu2, rfl⟩ := List.mem_map.mp hx
      apply processUser_preserve env s u2 _ emp env.attDate st i o ?hne2 hp
      case hne2 =>
        intro n hn hcontra
        rw [hcontra] at hn
        have hu2uid : u2 = uid := useridToEmp_inj env.employees u2 uid emp hnd hn hlk
        rw [hu2uid] at hu2
        exact huidnotin hu2
  obtain ⟨t0, ht0mem, ht0min, hcase1, hcase2⟩ :=
    processUser_establish env
      ((k1.map fun u => (u, timesFor
          (validPunchTimes env (fetchPunchesForDate env.net env.attDate).2.1) u)).foldl
        (fun s g => processUser env s g.1 g.2) env.attendance0)
      uid
      (timesFor (validPunchTimes env (fetchPunchesForDate env.net env.attDate).2.1) uid)
      emp hlk hne hdates
  constructor
  · intro t hts
    have hlen1 : (timesFor
        (validPunchTimes env (fetchPunchesForDate env.net env.attDate).2.1) uid).length = 1 := by
      rw [hts]
      rfl
    have ht0t : t0 = t := by
      rw [hts] at ht0mem
      exact List.mem_singleton.mp ht0mem
    rw [← ht0t]
    exact hpres _ _ _ _ (hcase1 hlen1)
  · intro hlen2
    obtain ⟨t1, ht1mem, ht1max, hA⟩ := hcase2 hlen2
    exact ⟨t0, t1, ht0mem, ht1mem, ht0min, ht1max, hpres _ _ _ _ hA⟩

/-- C9 witness: the status rule evaluated on a concrete run where `U2` has a
single punch at time 900. -/
theorem sync_status_rule_witness :
    useridToEmp syncEnvEx.employees "U2" = some "EMP-2" ∧
      attHas (sync_yesterday_attendance syncEnvEx) "EMP-2" syncEnvEx.attDate "Absent"
        (some (syncEnvEx.dtFmt 900)) none :=
  ⟨rfl, (sync_status_rule syncEnvEx "U2" "EMP-2" (by decide) rfl (by decide)).1 900 rfl⟩

/-- A `filterMap` whose function is a guarded `some` is a filter-then-map. -/
theorem filterMap_ite_eq_filter_map {α β : Type} (c : α → Prop) [DecidablePred c]
    (f : α → β) (l : List α) :
    (l.filterMap fun a => if c a then some (f a) else none) =
      (l.filter fun a => c a).map f := by
  induction l with
  | nil => rfl
  | cons a as ih =>
    by_cases hc : c a
    · simp [List.filterMap_cons, List.filter_cons, hc, ih]
    · simp [List.filterMap_cons, List.filter_cons, hc, ih]

/-- C7 counterexample: with no enabled item carrying a positive safety
stock, the low-stock list is empty yet the task returns early and prepares
no email at all — refuting "the green all-clear email otherwise". -/
theorem stock_alert_counterexample :
    lowStockItems stockEnvEmpty = [] ∧
    check_stock_levels_and_send_alert stockEnvEmpty = .noItems ∧
    check_stock_levels_and_send_alert stockEnvEmpty ≠ .green :=
  ⟨rfl, rfl, by decide⟩

/-- C7 (amended): provided at least one enabled item has a positive safety
stock, the task puts an item on the low-stock list iff its `actual_qty`
summed over exactly the three warehouses (a missing Bin contributing 0) is
strictly below its safety stock, prepares the red email with that list iff
it is non-empty, and the green email iff it is empty; with no qualifying
item it prepares no email. -/
theorem stock_alert_spec (env : StockEnv)
    (h : (env.items.filter fun i => !i.disabled && 0 < i.safety_stock) ≠ []) :
    (∀ item_code : String, totalStock env item_code =
      (alertWarehouses.map fun wh =>
        (binField env item_code wh (·.actual_qty)).getD 0).sum) ∧
    lowStockItems env =
      ((env.items.filter fun i => !i.disabled && 0 < i.safety_stock).filter
        fun i => totalStock env i.name < i.safety_stock).map
        (fun item =>
          { item_code := item.name, item_name := item.item_name,
            safety_stock := item.safety_stock,
            current_stock := totalStock env item.name,
            warehouse_stocks := alertWarehouses.map fun wh =>
              (wh, (get_item_stock_quantity env item.name (some wh)).actual_qty) }) ∧
    (lowStockItems env = [] → check_stock_levels_and_send_alert env = .green) ∧
    (lowStockItems env ≠ [] →
      check_stock_levels_and_send_alert env = .red (lowStockItems env)) := by
  have hne : (env.items.filter fun i => !i.disabled && 0 < i.safety_stock).isEmpty = false := by
    cases hl : env.items.filter fun i => !i.disabled && 0 < i.safety_stock with
    | nil => exact absurd hl h
    | cons a l => rfl
  refine ⟨fun item_code => rfl, ?_, ?_, ?_⟩
  · exact filterMap_ite_eq_filter_map _ _ _
  · intro hlow
    unfold check_stock_levels_and_send_alert
    rw [if_neg (by simp [hne]), if_pos (by simp [hlow])]
  · intro hlow
    have hlowe : (lowStockItems env).isEmpty = false := by
      cases hl : lowStockItems env with
      | nil => exact absurd hl hlow
      | cons a l => rfl
    unfold check_stock_levels_and_send_alert
    rw [if_neg (by simp [hne]), if_neg (by simp [hlowe])]

/-- C7 witness: the specification evaluated on a database with one item in
shortage (2 + 3 + 0 = 5 < 10): the red email is prepared. -/
theorem stock_alert_spec_witness :
    (stockEnvLow.items.filter fun i => !i.disabled && 0 < i.safety_stock) ≠ [] ∧
      check_stock_levels_and_send_alert stockEnvLow = .red (lowStockItems stockEnvLow) := by
  have h : (stockEnvLow.items.filter fun i => !i.disabled && 0 < i.safety_stock) ≠ [] := by
    norm_num +decide [stockEnvLow, List.filter_cons]
  have hlow : lowStockItems stockEnvLow ≠ [] := by
    norm_num +decide [lowStockItems, stockEnvLow, totalStock, get_item_stock_quantity,
      binField, alertWarehouses, List.filter_cons, List.filterMap_cons]
  exact ⟨h, (stock_alert_spec stockEnvLow h).2.2.2 hlow⟩

/-- C2 counterexample: `get_bom_items_only` — a whitelisted handler the
claim covers — propagates an error to the caller when its body raises,
instead of returning an empty placeholder. -/
theorem api_error_counterexample :
    get_bom_items_only bomEnvErr "BOM-0001" = .error "Error fetching BOM items" ∧
    ∀ v : List BomItem, get_bom_items_only bomEnvErr "BOM-0001" ≠ .ok v := by
  refine ⟨rfl, ?_⟩
  intro v hv
  rw [show get_bom_items_only bomEnvErr "BOM-0001" =
    .error "Error fetching BOM items" from rfl] at hv
  exact Except.noConfusion hv

/-- C2 (amended): not every whitelisted handler returns a placeholder on
error — `get_overview_data` logs and returns the all-zero dict when its
body raises, but `get_bom_items_only` logs and then re-raises via
`frappe.throw`, propagating "Error fetching BOM items" to the caller
whenever its body raises on a non-empty BOM name. -/
theorem api_error_handling (benv : BomEnv) (senv : SalesEnv) (bom_name : String)
    (from_date to_date : Option Int) (customer : Option String)
    (hname : bom_name ≠ "") (hb : benv.dbError = true) (hs : senv.dbError = true) :
    get_overview_data senv from_date to_date customer = zeroOverview ∧
    get_bom_items_only benv bom_name = .error "Error fetching BOM items" := by
  constructor
  · unfold get_overview_data
    rw [if_pos hs]
  · unfold get_bom_items_only bomItemsBody
    rw [if_neg hname]
    by_cases he : benv.bomExists bom_name = true
    · simp [he, hb]
    · simp [he]

/-- C2 witness: the amended behaviour at concrete raising environments. -/
theorem api_error_handling_witness :
    get_overview_data salesEnvErr none none none = zeroOverview ∧
      get_bom_items_only bomEnvErr "BOM-0001" = .error "Error fetching BOM items" :=
  api_error_handling bomEnvErr salesEnvErr "BOM-0001" none none none (by decide) rfl rfl

end Hexplastics
